import Mathlib

/-
Shallow embedding of the notification subsystem of
src/taskie-backend/src/services/notification/NotificationService.ts.

The durable store (PostgreSQL table `notifications`) is a list of records in
insertion order; the cache (Redis) is a collection of partial maps: a per-id
notification key, per-(user, workspace) ordered id lists, per-user and
per-(user, workspace) unread counters, and a preferences key.  Exceptions
of the source are compiled away: every operation carries a `Fail` record
saying which backend raises on access, and each try/catch of the source
becomes an explicit branch returning the value the catch returns, with the
state as mutated up to the point of failure.
-/

namespace Taskie

/-- NotificationType enumeration of the source (NotificationService.ts lines 12-28). -/
inductive NotificationType where
  | WORKSPACE_CREATED
  | WORKSPACE_DELETED
  | WORKSPACE_UPDATED
  | USER_ADDED_TO_WORKSPACE
  | USER_REMOVED_FROM_WORKSPACE
  | USER_ROLE_UPDATED
  | TEAM_CREATED
  | TEAM_UPDATED
  | TEAM_DELETED
  | TASK_ASSIGNED
  | TASK_UPDATED
  | TASK_COMPLETED
  | MENTION
  | DEADLINE_APPROACHING
  | PROJECT_MILESTONE
deriving DecidableEq, Repr

/-- NotificationChannel enumeration of the source (lines 30-35). -/
inductive NotificationChannel where
  | EMAIL
  | WEBSOCKET
  | IN_APP
  | PUSH
deriving DecidableEq, Repr

/-- INotification (lines 37-49).  Ids, user ids and workspace ids are modelled
as naturals; timestamps as naturals; the opaque `data` payload as an
association list of strings. -/
structure Notification where
  id : Nat
  userId : Nat
  workspace_id : Nat
  type : NotificationType
  title : String
  message : String
  data : List (String × String)
  channels : List NotificationChannel
  isRead : Bool
  created_at : Nat
  readAt : Option Nat
deriving DecidableEq, Repr

/-- The input shape of createAndSendNotification:
Omit of INotification dropping id, created_at, isRead (and readAt, which no
caller supplies). -/
structure NotificationData where
  userId : Nat
  workspace_id : Nat
  type : NotificationType
  title : String
  message : String
  data : List (String × String)
  channels : List NotificationChannel
deriving DecidableEq, Repr

/-- NotificationPreferences (lines 51-60).  The per-type channel override map
is an association list from notification type to an explicit channel list,
mirroring the JSON object stored in the `channels` column. -/
structure NotificationPreferences where
  userId : Nat
  workspace_id : Nat
  emailEnabled : Bool
  pushEnabled : Bool
  inAppEnabled : Bool
  channels : List (NotificationType × List NotificationChannel)
deriving DecidableEq, Repr

/-- Which backend operations raise.  `redis` makes every cache operation
throw; `db` makes every durable-store query throw.  `noFail` is the
failure-free world used by the functional claims. -/
structure Fail where
  redis : Bool
  db : Bool
deriving DecidableEq, Repr

def noFail : Fail := ⟨false, false⟩

/-- Joint state of the durable store and the cache.
`db` is the `notifications` table in insertion order; `prefsDb` the
`notification_preferences` table.  `notifCache` models the
`notification:{id}` keys, `userLists` the `user_notifications:{u}:{w}`
ordered lists (one association list per user: one entry per existing Redis
key, most recent id first), `unreadUser` the `unread_count:{u}` keys,
`unreadWs` the `unread_count:{u}:{w}` keys and `prefsCache` the
`notification_preferences:{u}:{w}` keys. -/
structure St where
  db : List Notification
  prefsDb : Nat → Nat → Option NotificationPreferences
  notifCache : Nat → Option Notification
  userLists : Nat → List (Nat × List Nat)
  unreadUser : Nat → Option Int
  unreadWs : Nat → Nat → Option Int
  prefsCache : Nat → Nat → Option NotificationPreferences

/-- The empty deployment: empty tables, empty cache. -/
def emptySt : St where
  db := []
  prefsDb := fun _ _ => none
  notifCache := fun _ => none
  userLists := fun _ => []
  unreadUser := fun _ => none
  unreadWs := fun _ _ => none
  prefsCache := fun _ _ => none

/-- Row predicate of COUNT(*) WHERE user_id = u AND is_read = false. -/
def unreadU (u : Nat) (n : Notification) : Bool :=
  n.userId == u && !n.isRead

/-- Row predicate of COUNT(*) WHERE user_id = u AND workspace_id = w AND
is_read = false. -/
def unreadUW (u w : Nat) (n : Notification) : Bool :=
  n.userId == u && n.workspace_id == w && !n.isRead

/-- Number of unread notifications of a user in the durable store
(COUNT(*) WHERE user_id = u AND is_read = false). -/
def dbUnreadUser (db : List Notification) (u : Nat) : Nat :=
  db.countP (unreadU u)

/-- Number of unread notifications of a user in one workspace in the durable
store (COUNT(*) WHERE user_id = u AND workspace_id = w AND is_read = false). -/
def dbUnreadWs (db : List Notification) (u w : Nat) : Nat :=
  db.countP (unreadUW u w)

/-- Default preferences object built inline by the source when no row exists
(lines 531-538) and again in the catch (lines 558-565). -/
def defaultPreferences (userId workspace_id : Nat) : NotificationPreferences where
  userId := userId
  workspace_id := workspace_id
  emailEnabled := true
  pushEnabled := true
  inAppEnabled := true
  channels := []

/-- getUserNotificationPreferences (lines 501-567): cache-aside read of the
preferences with the missing-row default and a catch returning the default.
A cache failure raises at the first `redisClient.get`, a db failure at the
SELECT; both land in the catch.  On a db read the result (default included)
is written back to the cache. -/
def getUserNotificationPreferences (f : Fail) (s : St) (userId workspace_id : Nat) :
    NotificationPreferences × St :=
  if f.redis then (defaultPreferences userId workspace_id, s)
  else
    match s.prefsCache userId workspace_id with
    | some p => (p, s)
    | none =>
      if f.db then (defaultPreferences userId workspace_id, s)
      else
        let preferences :=
          match s.prefsDb userId workspace_id with
          | none => defaultPreferences userId workspace_id
          | some row => row
        (preferences,
          { s with prefsCache := fun u w =>
              if u = userId ∧ w = workspace_id then some preferences
              else s.prefsCache u w })

/-- filterChannelsByPreferences (lines 572-601): a requested channel passes
when its master switch is on (in-app gates both IN_APP and WEBSOCKET) and the
per-type override, when present, lists it.  forEach plus push preserves the
request order, hence List.filter. -/
def filterChannelsByPreferences (channels : List NotificationChannel)
    (type : NotificationType) (preferences : NotificationPreferences) :
    List NotificationChannel :=
  channels.filter (fun channel =>
    let isChannelEnabled :=
      (channel == NotificationChannel.EMAIL && preferences.emailEnabled) ||
      (channel == NotificationChannel.PUSH && preferences.pushEnabled) ||
      (channel == NotificationChannel.IN_APP && preferences.inAppEnabled) ||
      (channel == NotificationChannel.WEBSOCKET && preferences.inAppEnabled)
    if !isChannelEnabled then false
    else
      match preferences.channels.lookup type with
      | some typeChannels => typeChannels.contains channel
      | none => true)

/-- createNotification (lines 379-420): INSERT of a fresh row with
is_read = false and no read_at, returning the row.  The generated uuid and
the clock are parameters. -/
def createNotification (s : St) (newId now : Nat) (nd : NotificationData) :
    Notification × St :=
  let n : Notification :=
    { id := newId, userId := nd.userId, workspace_id := nd.workspace_id
      type := nd.type, title := nd.title, message := nd.message, data := nd.data
      channels := nd.channels, isRead := false, created_at := now, readAt := none }
  (n, { s with db := s.db ++ [n] })

/-- lPush of an id onto the user_notifications list of one workspace followed
by lTrim 0 99 (keep the most recent 100); a missing Redis key is created. -/
def pushUserList (lists : List (Nat × List Nat)) (w id : Nat) :
    List (Nat × List Nat) :=
  match lists.lookup w with
  | some ids => lists.map (fun p => if p.1 = w then (p.1, (id :: ids).take 100) else p)
  | none => lists ++ [(w, [id])]

/-- cacheNotification (lines 425-442): setEx of the full record under
notification:{id} then lPush + lTrim on user_notifications:{u}:{w}. -/
def cacheNotification (s : St) (n : Notification) : St :=
  { s with
    notifCache := fun i => if i = n.id then some n else s.notifCache i
    userLists := fun u =>
      if u = n.userId then pushUserList (s.userLists u) n.workspace_id n.id
      else s.userLists u }

/-- incrBy semantics: a missing counter key counts as 0. -/
def incrOpt (v : Option Int) (d : Int) : Option Int :=
  some (v.getD 0 + d)

/-- updateUnreadCount (lines 606-647).  With an increment: incrBy on the
user key, then, when a workspace is given, on the workspace key.  Without an
increment: recompute the user-wide count from the durable store and SET it,
then the same for the workspace key when a workspace is given.  The catch
absorbs any failure, keeping the state mutated so far (with the coarse
failure flags the first backend access already raises, so nothing mutates). -/
def updateUnreadCount (f : Fail) (s : St) (userId : Nat) (workspace_id : Option Nat)
    (increment : Option Int) : St :=
  match increment with
  | some inc =>
    if f.redis then s
    else
      let s1 := { s with unreadUser := fun u =>
          if u = userId then incrOpt (s.unreadUser u) inc else s.unreadUser u }
      match workspace_id with
      | some w =>
        { s1 with unreadWs := fun u wk =>
            if u = userId ∧ wk = w then incrOpt (s1.unreadWs u wk) inc
            else s1.unreadWs u wk }
      | none => s1
  | none =>
    if f.db then s
    else if f.redis then s
    else
      let overallCount : Int := dbUnreadUser s.db userId
      let s1 := { s with unreadUser := fun u =>
          if u = userId then some overallCount else s.unreadUser u }
      match workspace_id with
      | some w =>
        let workspaceCount : Int := dbUnreadWs s.db userId w
        { s1 with unreadWs := fun u wk =>
            if u = userId ∧ wk = w then some workspaceCount
            else s1.unreadWs u wk }
      | none => s1

/-- getUnreadCount (lines 652-697): read the workspace key when a workspace
is requested, else (or on a workspace-key miss) the user key; when both miss,
recompute via updateUnreadCount and read again; catch returns 0. -/
def getUnreadCount (f : Fail) (s : St) (userId : Nat) (workspace_id : Option Nat) :
    Int × St :=
  if f.redis then (0, s)
  else
    let fromWs : Option Int :=
      match workspace_id with
      | some w => s.unreadWs userId w
      | none => none
    let count0 : Option Int :=
      match fromWs with
      | some c => some c
      | none => s.unreadUser userId
    match count0 with
    | some c => (c, s)
    | none =>
      let s1 := updateUnreadCount f s userId workspace_id none
      let fromWs1 : Option Int :=
        match workspace_id with
        | some w => s1.unreadWs userId w
        | none => none
      let count1 : Option Int :=
        match fromWs1 with
        | some c => some c
        | none => s1.unreadUser userId
      (count1.getD 0, s1)

/-- getNotificationById (lines 735-785): cache-first read of one record; on
a cache miss the SELECT is keyed on (id, user_id) and a hit is re-warmed via
cacheNotification; the catch returns null.  Note the cache hit path performs
no user check. -/
def getNotificationById (f : Fail) (s : St) (notificationId userId : Nat) :
    Option Notification × St :=
  if f.redis then (none, s)
  else
    match s.notifCache notificationId with
    | some n => (some n, s)
    | none =>
      if f.db then (none, s)
      else
        match s.db.find? (fun n => n.id == notificationId && n.userId == userId) with
        | none => (none, s)
        | some n => (some n, cacheNotification s n)

/-- The row mutation of an UPDATE ... SET is_read = true, read_at = now
applied to every row matching the predicate. -/
def markMatching (db : List Notification) (q : Notification → Bool) (now : Nat) :
    List Notification :=
  db.map (fun n => if q n then { n with isRead := true, readAt := some now } else n)

/-- markAsRead (lines 702-730): look the record up (cache first); a missing
or already-read record returns false; otherwise UPDATE ... WHERE id AND
user_id (no is_read guard), and when a row was touched, delete the cache key
and decrement both counters by one.  The catch returns false with the state
mutated so far. -/
def markAsRead (f : Fail) (s : St) (notificationId userId now : Nat) : Bool × St :=
  let r := getNotificationById f s notificationId userId
  match r.1 with
  | none => (false, r.2)
  | some notification =>
    if notification.isRead then (false, r.2)
    else if f.db then (false, r.2)
    else
      let s0 := r.2
      let rowCount :=
        (s0.db.filter (fun n => n.id == notificationId && n.userId == userId)).length
      let db1 :=
        markMatching s0.db (fun n => n.id == notificationId && n.userId == userId) now
      let s1 := { s0 with db := db1 }
      if rowCount > 0 then
        if f.redis then (false, s1)
        else
          let s2 := { s1 with notifCache := fun i =>
              if i = notificationId then none else s1.notifCache i }
          (true, updateUnreadCount f s2 userId (some notification.workspace_id) (some (-1)))
      else (false, s1)

/-- markAllAsRead (lines 790-818): UPDATE every unread row of the user
(restricted to one workspace when given), then decrement the counters by the
row count when positive; the catch returns 0. -/
def markAllAsRead (f : Fail) (s : St) (userId : Nat) (workspace_id : Option Nat)
    (now : Nat) : Nat × St :=
  if f.db then (0, s)
  else
    let q := fun (n : Notification) =>
      n.userId == userId && !n.isRead &&
        (match workspace_id with
         | some w => n.workspace_id == w
         | none => true)
    let count := s.db.countP q
    let s1 := { s with db := markMatching s.db q now }
    if count > 0 then
      (count, updateUnreadCount f s1 userId workspace_id (some (-(count : Int))))
    else (count, s1)

/-- deleteNotification (lines 823-854): look the record up (cache first),
DELETE ... WHERE id AND user_id, and when a row was removed, delete the cache
key and decrement the counters only when the record was unread; the catch
returns false.  The id is not removed from the user_notifications lists. -/
def deleteNotification (f : Fail) (s : St) (notificationId userId : Nat) : Bool × St :=
  let r := getNotificationById f s notificationId userId
  match r.1 with
  | none => (false, r.2)
  | some notification =>
    if f.db then (false, r.2)
    else
      let s0 := r.2
      let rowCount :=
        (s0.db.filter (fun n => n.id == notificationId && n.userId == userId)).length
      let db1 :=
        s0.db.filter (fun n => !(n.id == notificationId && n.userId == userId))
      let s1 := { s0 with db := db1 }
      if rowCount > 0 then
        if f.redis then (false, s1)
        else
          let s2 := { s1 with notifCache := fun i =>
              if i = notificationId then none else s1.notifCache i }
          if notification.isRead then (true, s2)
          else (true, updateUnreadCount f s2 userId (some notification.workspace_id) (some (-1)))
      else (false, s1)

/-- createAndSendNotification (lines 329-374): resolve preferences, filter
the requested channels; an empty effective set persists the record with an
empty channel list and returns at once (no cache mirror, no counter update);
otherwise persist, mirror into the cache (its own catch absorbs a cache
failure), increment both counters by one, and hand the EMAIL/PUSH sends to
the external collaborators (outside the modelled state).  A durable INSERT
failure propagates to the caller, modelled as `none`. -/
def createAndSendNotification (f : Fail) (s : St) (newId now : Nat)
    (nd : NotificationData) : Option (Notification × St) :=
  let pr := getUserNotificationPreferences f s nd.userId nd.workspace_id
  let enabledChannels := filterChannelsByPreferences nd.channels nd.type pr.1
  if f.db then none
  else if enabledChannels.length = 0 then
    some (createNotification pr.2 newId now { nd with channels := [] })
  else
    let c := createNotification pr.2 newId now { nd with channels := enabledChannels }
    let s3 := if f.redis then c.2 else cacheNotification c.2 c.1
    let s4 := updateUnreadCount f s3 c.1.userId (some c.1.workspace_id) (some 1)
    (some (c.1, s4))

/-- The duplicate-removing conversion [...new Set(ids)], keeping first
occurrences in order. -/
def dedupFirst (l : List Nat) : List Nat :=
  l.foldl (fun acc x => if x ∈ acc then acc else acc ++ [x]) []

/-- getUserNotificationsFromRedis (lines 970-1039).  With a workspace: lRange
offset .. offset+limit-1 on the single list (a zero limit falls back to 50 by
the JS truthiness of `limit || 50`), fetch each id from the per-id cache,
total is lLen of the full list.  Without a workspace: scan every
user_notifications:{u}:* key, concatenate all ids, deduplicate, paginate,
total is the number of distinct ids.  The catch returns an empty page. -/
def getUserNotificationsFromRedis (f : Fail) (s : St) (userId : Nat)
    (workspace_id : Option Nat) (limit offset : Nat) :
    List Notification × Nat :=
  if f.redis then ([], 0)
  else
    let limitEff := if limit = 0 then 50 else limit
    match workspace_id with
    | some w =>
      let fullList := ((s.userLists userId).lookup w).getD []
      let notificationIds := (fullList.drop offset).take limitEff
      if notificationIds.length = 0 then ([], 0)
      else
        let notifications := notificationIds.filterMap s.notifCache
        (notifications, fullList.length)
    | none =>
      let keys := s.userLists userId
      if keys.length = 0 then ([], 0)
      else
        let allNotificationIds := keys.foldl (fun acc p => acc ++ p.2) []
        let uniqueIds := dedupFirst allNotificationIds
        let paginatedIds := (uniqueIds.drop offset).take limitEff
        let notifications := paginatedIds.filterMap s.notifCache
        (notifications, uniqueIds.length)

/-- Options object of getUserNotifications with the destructuring defaults
page = 1, limit = 50, unreadOnly = false of the source. -/
structure FeedOptions where
  page : Nat := 1
  limit : Nat := 50
  unreadOnly : Bool := false
  types : Option (List NotificationType) := none
deriving DecidableEq, Repr

/-- Result shape of getUserNotifications. -/
structure Feed where
  notifications : List Notification
  total : Nat
  unreadCount : Int
deriving DecidableEq, Repr

def emptyFeed : Feed := { notifications := [], total := 0, unreadCount := 0 }

/-- The WHERE predicate the whereConditions array of getUserNotifications
describes: user, optional workspace, optional is_read = false, optional
type = ANY(types) added only for a nonempty types list. -/
def feedFilter (userId : Nat) (workspace_id : Option Nat) (unreadOnly : Bool)
    (types : Option (List NotificationType)) (n : Notification) : Bool :=
  n.userId == userId &&
  (match workspace_id with
   | some w => n.workspace_id == w
   | none => true) &&
  (!unreadOnly || !n.isRead) &&
  (match types with
   | some ts => ts.length == 0 || ts.contains n.type
   | none => true)

/-- Stable insertion into a list kept in descending created_at order. -/
def insertDesc (n : Notification) : List Notification → List Notification
  | [] => [n]
  | m :: ms =>
    if m.created_at ≥ n.created_at then m :: insertDesc n ms else n :: m :: ms

/-- ORDER BY created_at DESC. -/
def sortByCreatedDesc (l : List Notification) : List Notification :=
  l.foldl (fun acc n => insertDesc n acc) []

/-- Number of $k placeholders the fallback notifications query of
getUserNotifications actually contains.  The source builds the query with
plain template interpolation — `workspace_id = X`, `type = ANY(X)` and
`LIMIT X OFFSET Y` are emitted with the literal running index X, without the
dollar prefix a bind placeholder needs — so only `user_id = $1` survives as
a placeholder. -/
def fallbackBindPlaceholders : Nat := 1

/-- Number of bind values the source passes with the fallback notifications
query: the user id, the workspace id when given, the types array when a
nonempty list is given, and always the limit and the offset. -/
def fallbackBindValues (workspace_id : Option Nat)
    (types : Option (List NotificationType)) : Nat :=
  1 +
  (match workspace_id with | some _ => 1 | none => 0) +
  (match types with
   | some ts => if 0 < ts.length then 1 else 0
   | none => 0) +
  2

/-- getUserNotifications (lines 859-965): serve the page from the cache when
it yields at least one record (the unreadOnly and types filters are not
consulted on this path), otherwise run the durable fallback query.  The
fallback bind always carries more values than the statement has placeholders
(fallbackBindValues is at least 3 against 1), so the database rejects it and
the catch returns the empty feed; the branch behind the bind check carries
the semantics the query text intends and is unreachable. -/
def getUserNotifications (f : Fail) (s : St) (userId : Nat)
    (workspace_id : Option Nat) (options : FeedOptions) : Feed × St :=
  let limit := options.limit
  let offset := (options.page - 1) * limit
  let redisPage := getUserNotificationsFromRedis f s userId workspace_id limit offset
  if redisPage.1.length > 0 then
    let u := getUnreadCount f s userId workspace_id
    ({ notifications := redisPage.1, total := redisPage.2, unreadCount := u.1 }, u.2)
  else if f.db then (emptyFeed, s)
  else if fallbackBindValues workspace_id options.types ≠ fallbackBindPlaceholders then
    (emptyFeed, s)
  else
    let rows :=
      ((sortByCreatedDesc (s.db.filter
        (feedFilter userId workspace_id options.unreadOnly options.types))).drop
          offset).take limit
    let total :=
      s.db.countP (feedFilter userId workspace_id options.unreadOnly options.types)
    let u := getUnreadCount f s userId workspace_id
    ({ notifications := rows, total := total, unreadCount := u.1 }, u.2)

/-- lRem of one id from the user_notifications list of one workspace. -/
def removeFromUserList (lists : List (Nat × List Nat)) (w id : Nat) :
    List (Nat × List Nat) :=
  lists.map (fun p => if p.1 = w then (p.1, p.2.filter (fun x => x != id)) else p)

/-- Cache cleanup loop of deleteOldNotifications: per deleted row, delete the
per-id key and lRem the id from the owning list. -/
def purgeCache (s : St) (rows : List Notification) : St :=
  rows.foldl
    (fun st n =>
      { st with
        notifCache := fun i => if i = n.id then none else st.notifCache i
        userLists := fun u =>
          if u = n.userId then removeFromUserList (st.userLists u) n.workspace_id n.id
          else st.userLists u })
    s

/-- Cutoff instant of the retention sweep: now minus daysOld days (the source
subtracts calendar days from the current date; with natural-number
millisecond timestamps this is now - daysOld * 86400000, truncated at 0). -/
def retentionCutoff (now daysOld : Nat) : Nat :=
  now - daysOld * 86400000

/-- deleteOldNotifications (lines 1120-1158): DELETE every row that is
already read and older than the cutoff, purge the deleted rows from the
cache, recompute the user-wide counter of every affected user, and return
the number of deleted rows; the catch returns 0 (after the durable DELETE
when the cache cleanup raised). -/
def deleteOldNotifications (f : Fail) (s : St) (cutoff : Nat) : Nat × St :=
  if f.db then (0, s)
  else
    let removed := s.db.filter (fun n => decide (n.created_at < cutoff) && n.isRead)
    let db1 := s.db.filter (fun n => !(decide (n.created_at < cutoff) && n.isRead))
    let s1 := { s with db := db1 }
    let deletedCount := removed.length
    if deletedCount > 0 then
      if f.redis then (0, s1)
      else
        let s2 := purgeCache s1 removed
        let affectedUsers := dedupFirst (removed.map (fun n => n.userId))
        let s3 := affectedUsers.foldl
          (fun st u => updateUnreadCount f st u none none) s2
        (deletedCount, s3)
    else (deletedCount, s1)

/-- Spec wording of the master switches (section 8 of the specification):
email for EMAIL, push for PUSH, in-app for both IN_APP and the WEBSOCKET
real-time channel.  Kept separate from the source embedding so the two can
be compared. -/
def masterSwitch (c : NotificationChannel) (p : NotificationPreferences) : Bool :=
  match c with
  | .EMAIL => p.emailEnabled
  | .PUSH => p.pushEnabled
  | .IN_APP => p.inAppEnabled
  | .WEBSOCKET => p.inAppEnabled

/-- Every cached unread counter is present and equals the durable count of
its scope. -/
def CounterOK (s : St) : Prop :=
  (∀ u, s.unreadUser u = some (dbUnreadUser s.db u : Int)) ∧
  (∀ u w, s.unreadWs u w = some (dbUnreadWs s.db u w : Int))

/-- Every cached per-id notification copy is a verbatim copy of a current
durable record stored under its own id. -/
def NotifCacheOK (s : St) : Prop :=
  ∀ i n, s.notifCache i = some n → n ∈ s.db ∧ n.id = i

/-- Durable ids are pairwise distinct (uuid uniqueness). -/
def IdsNodup (s : St) : Prop :=
  (s.db.map (fun n => n.id)).Nodup

instance (s : St) : Decidable (IdsNodup s) := by
  unfold IdsNodup
  exact inferInstance

/-- Bool form of the read-timestamp bound: when read_at is set it is at
least created_at. -/
def readAtOK (n : Notification) : Bool :=
  match n.readAt with
  | some t => n.created_at ≤ t
  | none => true

/-- Record-level read invariant: read_at is set iff the read flag is, and a
set read_at is not before created_at. -/
def ReadOK (n : Notification) : Prop :=
  (n.isRead = true ↔ n.readAt ≠ none) ∧ readAtOK n = true

/-- State-level read invariant over the durable store. -/
def ReadInv (s : St) : Prop :=
  ∀ n ∈ s.db, ReadOK n

instance (n : Notification) : Decidable (ReadOK n) :=
  inferInstanceAs (Decidable (_ ∧ _))

instance (s : St) : Decidable (ReadInv s) :=
  inferInstanceAs (Decidable (∀ n ∈ s.db, ReadOK n))

/-
Concrete scenario states used by counterexamples and witnesses.
-/

/-- Placeholder record used only as the default of Option.getD on results
the surrounding proofs show to be present. -/
def dummyNotification : Notification :=
  { id := 0, userId := 0, workspace_id := 0, type := .MENTION, title := "",
    message := "", data := [], channels := [], isRead := false, created_at := 0,
    readAt := none }

/-- A TASK_ASSIGNED event for user 1 in workspace 2 requesting IN_APP. -/
def nd1 : NotificationData :=
  { userId := 1, workspace_id := 2, type := .TASK_ASSIGNED, title := "t",
    message := "m", data := [], channels := [.IN_APP] }

/-- Result of composing nd1 on the empty deployment. -/
def sWpair : Notification × St :=
  (createAndSendNotification noFail emptySt 1 10 nd1).getD
    (dummyNotification, emptySt)

/-- State after composing nd1 on the empty deployment: one persisted unread
notification, warm cache, both counters at 1. -/
def sW : St := sWpair.2


/-- sW after markAllAsRead for user 1 with no workspace filter. -/
def sB : St := (markAllAsRead noFail sW 1 none 20).2

/-- sW with the whole cache cleared; the durable store is untouched. -/
def sWCleared : St :=
  { sW with notifCache := fun _ => none, userLists := fun _ => [],
            unreadUser := fun _ => none, unreadWs := fun _ _ => none,
            prefsCache := fun _ _ => none }

/-- Preferences row disabling every master switch. -/
def prefsAllOff : NotificationPreferences :=
  { userId := 1, workspace_id := 2, emailEnabled := false, pushEnabled := false,
    inAppEnabled := false, channels := [] }

/-- Empty durable store except an all-off preferences row for (1, 2); both
counters cached at 0, matching the durable truth. -/
def sPrefOff : St :=
  { emptySt with
      prefsDb := fun u w => if u = 1 ∧ w = 2 then some prefsAllOff else none,
      unreadUser := fun u => if u = 1 then some 0 else none,
      unreadWs := fun u w => if u = 1 ∧ w = 2 then some 0 else none }

/-- Request with both EMAIL and IN_APP, used against the all-off
preferences row of sPrefOff. -/
def ndReq : NotificationData := { nd1 with channels := [.EMAIL, .IN_APP] }

/-- Result of composing ndReq on sPrefOff. -/
def c1res : Notification × St :=
  (createAndSendNotification noFail sPrefOff 1 10 ndReq).getD
    (dummyNotification, emptySt)

/-- State whose cache has only a user-wide counter (value 5) while workspace
2 of user 1 has no cached counter and no durable unread rows. -/
def sC4 : St :=
  { emptySt with unreadUser := fun u => if u = 1 then some 5 else none }

/-- Master switches of the section-8 channel-filtering example:
email on, push off, in-app on, no overrides. -/
def pEx : NotificationPreferences :=
  { userId := 1, workspace_id := 2, emailEnabled := true, pushEnabled := false,
    inAppEnabled := true, channels := [] }

/-- An already-read notification created at time 0. -/
def nOld : Notification :=
  { dummyNotification with
      id := 7, userId := 3, workspace_id := 4,
      isRead := true, created_at := 0, readAt := some 1 }

/-- An unread notification created at time 0. -/
def nOldUnread : Notification :=
  { dummyNotification with
      id := 8, userId := 3, workspace_id := 4,
      isRead := false, created_at := 0 }

/-- Durable store with one read and one unread old notification. -/
def sRet : St := { emptySt with db := [nOld, nOldUnread] }

/-- Durable store of sRet with counters seeded exactly at the durable truth
and an empty cache otherwise. -/
def sCW : St :=
  { emptySt with
      db := [nOld, nOldUnread],
      unreadUser := fun u => some (dbUnreadUser [nOld, nOldUnread] u : Int),
      unreadWs := fun u w => some (dbUnreadWs [nOld, nOldUnread] u w : Int) }

/-
Projection lemmas: which state components each helper leaves untouched.
-/

@[simp] theorem cacheNotification_db (s : St) (n : Notification) :
    (cacheNotification s n).db = s.db := rfl

@[simp] theorem cacheNotification_unreadUser (s : St) (n : Notification) :
    (cacheNotification s n).unreadUser = s.unreadUser := rfl

@[simp] theorem cacheNotification_unreadWs (s : St) (n : Notification) :
    (cacheNotification s n).unreadWs = s.unreadWs := rfl

@[simp] theorem updateUnreadCount_db (f : Fail) (s : St) (u : Nat)
    (ws : Option Nat) (inc : Option Int) :
    (updateUnreadCount f s u ws inc).db = s.db := by
  unfold updateUnreadCount
  cases inc <;> cases ws <;> (repeat' split) <;> rfl

@[simp] theorem updateUnreadCount_notifCache (f : Fail) (s : St) (u : Nat)
    (ws : Option Nat) (inc : Option Int) :
    (updateUnreadCount f s u ws inc).notifCache = s.notifCache := by
  unfold updateUnreadCount
  cases inc <;> cases ws <;> (repeat' split) <;> rfl

@[simp] theorem getUserNotificationPreferences_db (f : Fail) (s : St) (u w : Nat) :
    (getUserNotificationPreferences f s u w).2.db = s.db := by
  unfold getUserNotificationPreferences
  (repeat' split) <;> rfl

@[simp] theorem getUserNotificationPreferences_unreadUser (f : Fail) (s : St) (u w : Nat) :
    (getUserNotificationPreferences f s u w).2.unreadUser = s.unreadUser := by
  unfold getUserNotificationPreferences
  (repeat' split) <;> rfl

@[simp] theorem getUserNotificationPreferences_unreadWs (f : Fail) (s : St) (u w : Nat) :
    (getUserNotificationPreferences f s u w).2.unreadWs = s.unreadWs := by
  unfold getUserNotificationPreferences
  (repeat' split) <;> rfl

@[simp] theorem getNotificationById_db (f : Fail) (s : St) (i u : Nat) :
    (getNotificationById f s i u).2.db = s.db := by
  unfold getNotificationById
  (repeat' split) <;> rfl

@[simp] theorem getNotificationById_unreadUser (f : Fail) (s : St) (i u : Nat) :
    (getNotificationById f s i u).2.unreadUser = s.unreadUser := by
  unfold getNotificationById
  (repeat' split) <;> rfl

@[simp] theorem getNotificationById_unreadWs (f : Fail) (s : St) (i u : Nat) :
    (getNotificationById f s i u).2.unreadWs = s.unreadWs := by
  unfold getNotificationById
  (repeat' split) <;> rfl

@[simp] theorem purgeCache_db (s : St) (rows : List Notification) :
    (purgeCache s rows).db = s.db := by
  induction rows generalizing s with
  | nil => rfl
  | cons r t ih => simpa [purgeCache] using ih _

@[simp] theorem purgeCache_unreadUser (s : St) (rows : List Notification) :
    (purgeCache s rows).unreadUser = s.unreadUser := by
  induction rows generalizing s with
  | nil => rfl
  | cons r t ih => simpa [purgeCache] using ih _

@[simp] theorem purgeCache_unreadWs (s : St) (rows : List Notification) :
    (purgeCache s rows).unreadWs = s.unreadWs := by
  induction rows generalizing s with
  | nil => rfl
  | cons r t ih => simpa [purgeCache] using ih _

/-- C5: the effective channel set computed by filterChannelsByPreferences
contains exactly the requested channels whose master switch is on (email for
EMAIL, push for PUSH, in-app for IN_APP and WEBSOCKET) and that either have
no per-type override for the type or appear in the override list; in
particular masters email on, push off, in-app on with no override turn the
request EMAIL, PUSH, IN_APP into EMAIL, IN_APP. -/
theorem filterChannels_exactly_preference_enabled :
    (∀ (channels : List NotificationChannel) (type : NotificationType)
       (p : NotificationPreferences) (c : NotificationChannel),
       c ∈ filterChannelsByPreferences channels type p ↔
         (c ∈ channels ∧ masterSwitch c p = true ∧
           (p.channels.lookup type = none ∨
             ∃ ov, p.channels.lookup type = some ov ∧ c ∈ ov))) ∧
    filterChannelsByPreferences [.EMAIL, .PUSH, .IN_APP] .TASK_ASSIGNED pEx =
      [.EMAIL, .IN_APP] := by
  refine ⟨fun channels type p c => ?_, rfl⟩
  rw [filterChannelsByPreferences, List.mem_filter]
  refine and_congr_right fun _ => ?_
  cases hl : p.channels.lookup type <;> cases c <;>
    simp [masterSwitch, hl, List.contains, List.elem_eq_mem]

/-- C6: when neither the cache nor the durable table has a preferences row
for the pair, resolution returns the all-enabled default with no overrides;
the same default is returned when the resolution itself fails, on the cache
side or (after a cache miss) on the durable side. -/
theorem preferences_default_when_missing_or_failing :
    (∀ (f : Fail) (s : St) (u w : Nat),
       s.prefsCache u w = none → s.prefsDb u w = none →
       (getUserNotificationPreferences f s u w).1 = defaultPreferences u w) ∧
    (∀ (b : Bool) (s : St) (u w : Nat),
       (getUserNotificationPreferences ⟨true, b⟩ s u w).1 = defaultPreferences u w) ∧
    (∀ (s : St) (u w : Nat),
       s.prefsCache u w = none →
       (getUserNotificationPreferences ⟨false, true⟩ s u w).1 = defaultPreferences u w) := by
  refine ⟨fun f s u w hc hd => ?_, fun b s u w => ?_, fun s u w hc => ?_⟩
  · unfold getUserNotificationPreferences
    split
    · rfl
    · simp only [hc, hd]
      split <;> rfl
  · rfl
  · unfold getUserNotificationPreferences
    simp only [hc]
    rfl

/-- Witness for C6 at the empty deployment. -/
theorem preferences_default_witness :
    emptySt.prefsCache 1 2 = none ∧ emptySt.prefsDb 1 2 = none ∧
    (getUserNotificationPreferences noFail emptySt 1 2).1 = defaultPreferences 1 2 :=
  ⟨rfl, rfl, preferences_default_when_missing_or_failing.1 noFail emptySt 1 2 rfl rfl⟩

@[simp] theorem foldl_updateUnread_db (f : Fail) (l : List Nat) (s : St) :
    (l.foldl (fun st u => updateUnreadCount f st u none none) s).db = s.db := by
  induction l generalizing s with
  | nil => rfl
  | cons a t ih =>
    rw [List.foldl_cons, ih]
    simp

theorem deleteOld_spec (s : St) (cutoff : Nat) :
    (deleteOldNotifications noFail s cutoff).2.db =
      s.db.filter (fun n => !(decide (n.created_at < cutoff) && n.isRead)) ∧
    (deleteOldNotifications noFail s cutoff).1 =
      (s.db.filter (fun n => decide (n.created_at < cutoff) && n.isRead)).length := by
  unfold deleteOldNotifications
  simp only [noFail, Bool.false_eq_true, if_false]
  split
  · constructor <;> simp
  · constructor <;> simp_all

/-- C9: for every threshold and durable state the retention sweep keeps
every unread record regardless of age, keeps every record at least as
recent as the cutoff, removes nothing that was not stored, and returns
exactly the number of removed records. -/
theorem deleteOld_retention_safety (s : St) (now daysOld : Nat) :
    (∀ n ∈ s.db, n.isRead = false →
       n ∈ (deleteOldNotifications noFail s (retentionCutoff now daysOld)).2.db) ∧
    (∀ n ∈ s.db, retentionCutoff now daysOld ≤ n.created_at →
       n ∈ (deleteOldNotifications noFail s (retentionCutoff now daysOld)).2.db) ∧
    (∀ n ∈ (deleteOldNotifications noFail s (retentionCutoff now daysOld)).2.db,
       n ∈ s.db) ∧
    (deleteOldNotifications noFail s (retentionCutoff now daysOld)).1 +
      (deleteOldNotifications noFail s (retentionCutoff now daysOld)).2.db.length =
      s.db.length := by
  obtain ⟨hdb, hcnt⟩ := deleteOld_spec s (retentionCutoff now daysOld)
  refine ⟨?_, ?_, ?_, ?_⟩
  · intro n hn hr
    rw [hdb]
    exact List.mem_filter.2 ⟨hn, by simp [hr]⟩
  · intro n hn hc
    rw [hdb]
    refine List.mem_filter.2 ⟨hn, ?_⟩
    have hlt : ¬ (n.created_at < retentionCutoff now daysOld) := by omega
    simp [hlt]
  · intro n hn
    rw [hdb] at hn
    exact (List.mem_filter.1 hn).1
  · rw [hdb, hcnt, ← List.countP_eq_length_filter, ← List.countP_eq_length_filter]
    rw [List.length_eq_countP_add_countP
      (p := fun n => decide (n.created_at < retentionCutoff now daysOld) && n.isRead)]
    congr 1
    apply List.countP_congr
    intro x _
    simp

/-- Witness for C9: the old unread record of sRet survives a sweep whose
cutoff is past its creation time. -/
theorem deleteOld_retention_witness :
    nOldUnread ∈ sRet.db ∧ nOldUnread.isRead = false ∧
    nOldUnread ∈ (deleteOldNotifications noFail sRet (retentionCutoff 86400100 1)).2.db :=
  ⟨by decide, rfl,
    (deleteOld_retention_safety sRet 86400100 1).1 nOldUnread (by decide) rfl⟩

theorem readOK_markMatching (db : List Notification) (q : Notification → Bool)
    (now : Nat) (hinv : ∀ m ∈ db, ReadOK m) (htime : ∀ m ∈ db, m.created_at ≤ now) :
    ∀ m ∈ markMatching db q now, ReadOK m := by
  intro m hm
  unfold markMatching at hm
  obtain ⟨x, hx, rfl⟩ := List.mem_map.1 hm
  by_cases hq : q x = true
  · rw [if_pos hq]
    refine ⟨by simp, ?_⟩
    simpa [readAtOK] using htime x hx
  · rw [if_neg hq]
    exact hinv x hx

theorem markAsRead_db_cases (s : St) (i u now : Nat) :
    (markAsRead noFail s i u now).2.db = s.db ∨
    (markAsRead noFail s i u now).2.db =
      markMatching s.db (fun n => n.id == i && n.userId == u) now := by
  unfold markAsRead
  cases h : (getNotificationById noFail s i u).1 with
  | none => simp [h]
  | some n =>
    simp only [h]
    (repeat' split) <;> first | (left; simp; done) | (right; simp; done)

theorem markAllAsRead_db (s : St) (u : Nat) (ws : Option Nat) (now : Nat) :
    (markAllAsRead noFail s u ws now).2.db =
      markMatching s.db
        (fun n => n.userId == u && !n.isRead &&
          (match ws with | some w => n.workspace_id == w | none => true)) now := by
  unfold markAllAsRead
  rw [show noFail.db = false from rfl]
  simp only [Bool.false_eq_true, if_false]
  (repeat' split) <;> simp

theorem deleteNotification_db_cases (s : St) (i u : Nat) :
    (deleteNotification noFail s i u).2.db = s.db ∨
    (deleteNotification noFail s i u).2.db =
      s.db.filter (fun n => !(n.id == i && n.userId == u)) := by
  unfold deleteNotification
  cases h : (getNotificationById noFail s i u).1 with
  | none => simp [h]
  | some n =>
    simp only [h]
    (repeat' split) <;> first | (left; simp; done) | (right; simp; done)

theorem createAndSend_spec (s : St) (newId now : Nat) (nd : NotificationData) :
    ∀ n' s', createAndSendNotification noFail s newId now nd = some (n', s') →
      n' = { id := newId, userId := nd.userId, workspace_id := nd.workspace_id,
             type := nd.type, title := nd.title, message := nd.message,
             data := nd.data,
             channels := filterChannelsByPreferences nd.channels nd.type
               (getUserNotificationPreferences noFail s nd.userId nd.workspace_id).1,
             isRead := false, created_at := now, readAt := none } ∧
      s'.db = s.db ++ [n'] ∧
      ((n'.channels = [] ∧ s'.unreadUser = s.unreadUser ∧ s'.unreadWs = s.unreadWs) ∨
       (n'.channels ≠ [] ∧
        (∀ v, s'.unreadUser v =
          if v = nd.userId then incrOpt (s.unreadUser v) 1 else s.unreadUser v) ∧
        (∀ v w, s'.unreadWs v w =
          if v = nd.userId ∧ w = nd.workspace_id then incrOpt (s.unreadWs v w) 1
          else s.unreadWs v w))) := by
  intro n' s' h
  simp only [createAndSendNotification, noFail, Bool.false_eq_true, if_false] at h
  split at h
  case isTrue hlen =>
    simp only [createNotification, Option.some.injEq, Prod.mk.injEq] at h
    obtain ⟨hn, hs⟩ := h
    rw [List.length_eq_zero] at hlen
    subst hn hs
    refine ⟨?_, by simp, Or.inl ⟨rfl, by simp, by simp⟩⟩
    simp only [noFail]
    rw [hlen]
  case isFalse hlen =>
    simp only [createNotification, Option.some.injEq, Prod.mk.injEq] at h
    obtain ⟨hn, hs⟩ := h
    subst hn hs
    refine ⟨rfl, by simp,
      Or.inr ⟨fun hne => hlen (by rw [List.length_eq_zero]; simpa using hne), ?_, ?_⟩⟩
    · intro v
      simp only [updateUnreadCount, noFail, Bool.false_eq_true, if_false]
      simp
    · intro v w
      simp only [updateUnreadCount, noFail, Bool.false_eq_true, if_false]
      simp

/-- C8: read_at is set iff the read flag is set, and a set read_at never
precedes created_at: creation establishes the invariant, the marking
operations preserve it whenever the clock is not behind the creation times
in the store, and the delete and retention operations preserve it
unconditionally. -/
theorem read_flag_timestamp_invariant (s : St) (hinv : ReadInv s) :
    (∀ (newId now : Nat) (nd : NotificationData) (n' : Notification) (s' : St),
       createAndSendNotification noFail s newId now nd = some (n', s') →
       n'.isRead = false ∧ n'.readAt = none ∧ ReadInv s') ∧
    (∀ i u now, (∀ m ∈ s.db, m.created_at ≤ now) →
       ReadInv (markAsRead noFail s i u now).2) ∧
    (∀ u ws now, (∀ m ∈ s.db, m.created_at ≤ now) →
       ReadInv (markAllAsRead noFail s u ws now).2) ∧
    (∀ i u, ReadInv (deleteNotification noFail s i u).2) ∧
    (∀ cutoff, ReadInv (deleteOldNotifications noFail s cutoff).2) := by
  refine ⟨?_, ?_, ?_, ?_, ?_⟩
  · intro newId now nd n' s' h
    obtain ⟨hn, hdb, _⟩ := createAndSend_spec s newId now nd n' s' h
    refine ⟨by rw [hn], by rw [hn], ?_⟩
    intro m hm
    rw [hdb] at hm
    rcases List.mem_append.1 hm with hm | hm
    · exact hinv m hm
    · rcases List.mem_singleton.1 hm with rfl
      rw [hn]
      exact ⟨by simp, rfl⟩
  · intro i u now htime
    rcases markAsRead_db_cases s i u now with hdb | hdb
    · intro m hm; rw [hdb] at hm; exact hinv m hm
    · intro m hm; rw [hdb] at hm
      exact readOK_markMatching s.db _ now hinv htime m hm
  · intro u ws now htime m hm
    rw [markAllAsRead_db] at hm
    exact readOK_markMatching s.db _ now hinv htime m hm
  · intro i u
    rcases deleteNotification_db_cases s i u with hdb | hdb
    · intro m hm; rw [hdb] at hm; exact hinv m hm
    · intro m hm; rw [hdb] at hm; exact hinv m (List.mem_filter.1 hm).1
  · intro cutoff m hm
    rw [(deleteOld_spec s cutoff).1] at hm
    exact hinv m (List.mem_filter.1 hm).1

/-- Witness for C8: the invariant holds on the one-notification state sW and
is preserved by a markAllAsRead at a later clock. -/
theorem read_flag_timestamp_witness :
    ReadInv sW ∧ (∀ m ∈ sW.db, m.created_at ≤ 20) ∧
    ReadInv (markAllAsRead noFail sW 1 none 20).2 :=
  ⟨by decide, by decide,
    (read_flag_timestamp_invariant sW (by decide)).2.2.1 1 none 20 (by decide)⟩

/-- C1 amended: a successful createAndSendNotification persists the
notification with the preference-filtered effective channel set, even when
that set is empty; when the set is nonempty both cached unread counters are
incremented by exactly 1 over their prior values (an absent counter counting
as 0), and when it is empty the counters are left untouched. -/
theorem createAndSend_persists_and_counts (s : St) (newId now : Nat)
    (nd : NotificationData) (n' : Notification) (s' : St)
    (h : createAndSendNotification noFail s newId now nd = some (n', s')) :
    n' ∈ s'.db ∧ n'.isRead = false ∧
    n'.channels = filterChannelsByPreferences nd.channels nd.type
      (getUserNotificationPreferences noFail s nd.userId nd.workspace_id).1 ∧
    (n'.channels ≠ [] →
      s'.unreadUser nd.userId = some ((s.unreadUser nd.userId).getD 0 + 1) ∧
      s'.unreadWs nd.userId nd.workspace_id =
        some ((s.unreadWs nd.userId nd.workspace_id).getD 0 + 1)) ∧
    (n'.channels = [] →
      s'.unreadUser nd.userId = s.unreadUser nd.userId ∧
      s'.unreadWs nd.userId nd.workspace_id = s.unreadWs nd.userId nd.workspace_id) := by
  obtain ⟨hn, hdb, hc⟩ := createAndSend_spec s newId now nd n' s' h
  refine ⟨by rw [hdb]; exact List.mem_append_right _ (List.mem_singleton_self _),
    by rw [hn], by rw [hn], ?_, ?_⟩
  · intro hne
    rcases hc with ⟨hz, _, _⟩ | ⟨_, hu, hw⟩
    · exact absurd hz hne
    · refine ⟨?_, ?_⟩
      · rw [hu nd.userId]; simp [incrOpt]
      · rw [hw nd.userId nd.workspace_id]; simp [incrOpt]
  · intro hz
    rcases hc with ⟨_, hu, hw⟩ | ⟨hne, _, _⟩
    · exact ⟨by rw [hu], by rw [hw]⟩
    · exact absurd hz hne

/-- Witness for the amended C1: composing nd1 on the empty deployment has
nonempty effective channels and sets both counters to 1. -/
theorem createAndSend_persists_and_counts_witness :
    sWpair.1.channels ≠ [] ∧
    sWpair.2.unreadUser 1 = some 1 ∧ sWpair.2.unreadWs 1 2 = some 1 := by
  have h := (createAndSend_persists_and_counts emptySt 1 10 nd1 sWpair.1 sWpair.2
    rfl).2.2.2.1 (by decide)
  exact ⟨by decide, h.1, h.2⟩

/-- C1 counterexample: with every master switch disabled the composition
succeeds and persists the notification with an empty channel list, yet the
cached unread counters (present, value 0) are not incremented although the
durable store now holds one unread notification. -/
theorem createAndSend_empty_channels_counters_not_incremented :
    createAndSendNotification noFail sPrefOff 1 10 ndReq = some c1res ∧
    c1res.1.channels = [] ∧ c1res.1 ∈ c1res.2.db ∧
    dbUnreadUser c1res.2.db 1 = 1 ∧ dbUnreadWs c1res.2.db 1 2 = 1 ∧
    c1res.2.unreadUser 1 = some 0 ∧ c1res.2.unreadWs 1 2 = some 0 :=
  ⟨rfl, rfl, by decide, by decide, by decide, rfl, rfl⟩

/-- C4 amended: getUnreadCount serves the per-workspace cached value when
present; on a workspace-key miss it serves the user-wide cached value when
present, even for a workspace-scoped request and without recomputation; only
when both keys miss does it recompute both scopes from the durable store,
write them back, and return the requested scope. -/
theorem getUnreadCount_cache_then_fallback (s : St) (userId w : Nat) :
    (∀ c, s.unreadWs userId w = some c →
       getUnreadCount noFail s userId (some w) = (c, s)) ∧
    (∀ c, s.unreadWs userId w = none → s.unreadUser userId = some c →
       getUnreadCount noFail s userId (some w) = (c, s)) ∧
    (s.unreadWs userId w = none → s.unreadUser userId = none →
       (getUnreadCount noFail s userId (some w)).1 = (dbUnreadWs s.db userId w : Int) ∧
       (getUnreadCount noFail s userId (some w)).2.unreadUser userId =
         some (dbUnreadUser s.db userId : Int) ∧
       (getUnreadCount noFail s userId (some w)).2.unreadWs userId w =
         some (dbUnreadWs s.db userId w : Int)) ∧
    (∀ c, s.unreadUser userId = some c →
       getUnreadCount noFail s userId none = (c, s)) ∧
    (s.unreadUser userId = none →
       (getUnreadCount noFail s userId none).1 = (dbUnreadUser s.db userId : Int) ∧
       (getUnreadCount noFail s userId none).2.unreadUser userId =
         some (dbUnreadUser s.db userId : Int)) := by
  refine ⟨?_, ?_, ?_, ?_, ?_⟩
  · intro c h
    unfold getUnreadCount
    rw [show noFail.redis = false from rfl]
    simp [h]
  · intro c h1 h2
    unfold getUnreadCount
    rw [show noFail.redis = false from rfl]
    simp [h1, h2]
  · intro h1 h2
    unfold getUnreadCount updateUnreadCount
    rw [show noFail.redis = false from rfl, show noFail.db = false from rfl]
    simp [h1, h2]
  · intro c h
    unfold getUnreadCount
    rw [show noFail.redis = false from rfl]
    simp [h]
  · intro h
    unfold getUnreadCount updateUnreadCount
    rw [show noFail.redis = false from rfl, show noFail.db = false from rfl]
    simp [h]

/-- Witness for the amended C4: with only the user-wide key cached, a
user-wide request is served from it without touching the state. -/
theorem getUnreadCount_cache_then_fallback_witness :
    getUnreadCount noFail sC4 1 none = (5, sC4) :=
  (getUnreadCount_cache_then_fallback sC4 1 0).2.2.2.1 5 rfl

/-- C4 counterexample: with the workspace key absent and the user-wide key
cached at 5, a workspace-scoped request returns the user-wide 5 — the true
workspace count is 0 — and performs no recomputation: the workspace key is
still absent afterwards. -/
theorem getUnreadCount_serves_wrong_scope :
    (getUnreadCount noFail sC4 1 (some 2)).1 = 5 ∧
    dbUnreadWs sC4.db 1 2 = 0 ∧
    (getUnreadCount noFail sC4 1 (some 2)).2.unreadWs 1 2 = none :=
  ⟨rfl, rfl, rfl⟩

theorem countP_and_split {α : Type} (l : List α) (p q : α → Bool) :
    l.countP p = l.countP (fun a => p a && q a) + l.countP (fun a => p a && !q a) := by
  induction l with
  | nil => rfl
  | cons a t ih =>
    rw [List.countP_cons, List.countP_cons, List.countP_cons]
    cases hp : p a <;> cases hq : q a <;> simp [hp, hq] <;> omega

theorem countP_unique_id (db : List Notification)
    (hnd : (db.map (fun m => m.id)).Nodup) (n : Notification) (hn : n ∈ db)
    (r : Notification → Bool) :
    db.countP (fun m => (m.id == n.id) && r m) = if r n then 1 else 0 := by
  induction db with
  | nil => cases hn
  | cons a t ih =>
    rw [List.map_cons, List.nodup_cons] at hnd
    obtain ⟨ha, ht⟩ := hnd
    rcases List.mem_cons.1 hn with rfl | hn
    · rw [List.countP_cons]
      have hz : t.countP (fun m => (m.id == n.id) && r m) = 0 := by
        rw [List.countP_eq_zero]
        intro m hm hc
        rw [Bool.and_eq_true, beq_iff_eq] at hc
        exact ha (hc.1 ▸ List.mem_map_of_mem _ hm)
      rw [hz]
      simp
    · have hne : ¬(a.id = n.id) := by
        intro hc
        exact ha (hc ▸ List.mem_map_of_mem _ hn)
      rw [List.countP_cons, ih ht hn]
      simp [hne]

theorem unreadU_mark (u : Nat) (q : Notification → Bool) (now : Nat)
    (n : Notification) :
    unreadU u (if q n then { n with isRead := true, readAt := some now } else n) =
      (unreadU u n && !q n) := by
  cases h : q n <;> simp [unreadU, h]

theorem unreadUW_mark (u w : Nat) (q : Notification → Bool) (now : Nat)
    (n : Notification) :
    unreadUW u w (if q n then { n with isRead := true, readAt := some now } else n) =
      (unreadUW u w n && !q n) := by
  cases h : q n <;> simp [unreadUW, h]

theorem dbUnreadUser_mark (db : List Notification) (q : Notification → Bool)
    (now u : Nat) :
    dbUnreadUser (markMatching db q now) u =
      db.countP (fun n => unreadU u n && !q n) := by
  unfold dbUnreadUser markMatching
  rw [List.countP_map]
  congr 1
  funext x
  exact unreadU_mark u q now x

theorem dbUnreadWs_mark (db : List Notification) (q : Notification → Bool)
    (now u w : Nat) :
    dbUnreadWs (markMatching db q now) u w =
      db.countP (fun n => unreadUW u w n && !q n) := by
  unfold dbUnreadWs markMatching
  rw [List.countP_map]
  congr 1
  funext x
  exact unreadUW_mark u w q now x

theorem dbUnreadUser_filter (db : List Notification) (q : Notification → Bool)
    (u : Nat) :
    dbUnreadUser (db.filter q) u = db.countP (fun n => unreadU u n && q n) := by
  unfold dbUnreadUser
  rw [List.countP_filter]

theorem dbUnreadWs_filter (db : List Notification) (q : Notification → Bool)
    (u w : Nat) :
    dbUnreadWs (db.filter q) u w = db.countP (fun n => unreadUW u w n && q n) := by
  unfold dbUnreadWs
  rw [List.countP_filter]

theorem markAsRead_not_found (s : St) (i u now : Nat)
    (hmiss : s.notifCache i = none)
    (hfind : s.db.find? (fun m => m.id == i && m.userId == u) = none) :
    markAsRead noFail s i u now = (false, s) := by
  unfold markAsRead getNotificationById
  rw [show noFail.redis = false from rfl, show noFail.db = false from rfl]
  simp [hmiss, hfind]

theorem markAsRead_found_read (s : St) (i u now : Nat) (n : Notification)
    (hmiss : s.notifCache i = none)
    (hfind : s.db.find? (fun m => m.id == i && m.userId == u) = some n)
    (hread : n.isRead = true) :
    (markAsRead noFail s i u now).1 = false ∧
    (markAsRead noFail s i u now).2.db = s.db ∧
    (markAsRead noFail s i u now).2.unreadUser = s.unreadUser ∧
    (markAsRead noFail s i u now).2.unreadWs = s.unreadWs := by
  unfold markAsRead getNotificationById
  rw [show noFail.redis = false from rfl, show noFail.db = false from rfl]
  simp [hmiss, hfind, hread]

theorem markAsRead_found_unread (s : St) (i u now : Nat) (n : Notification)
    (hnd : (s.db.map (fun m => m.id)).Nodup)
    (hmiss : s.notifCache i = none)
    (hfind : s.db.find? (fun m => m.id == i && m.userId == u) = some n)
    (hunread : n.isRead = false) :
    (markAsRead noFail s i u now).1 = true ∧
    (markAsRead noFail s i u now).2.db =
      markMatching s.db (fun m => m.id == i && m.userId == u) now ∧
    (markAsRead noFail s i u now).2.notifCache i = none ∧
    (∀ v, (markAsRead noFail s i u now).2.unreadUser v =
       if v = u then incrOpt (s.unreadUser v) (-1) else s.unreadUser v) ∧
    (∀ v w', (markAsRead noFail s i u now).2.unreadWs v w' =
       if v = u ∧ w' = n.workspace_id then incrOpt (s.unreadWs v w') (-1)
       else s.unreadWs v w') := by
  have hp := List.find?_some hfind
  rw [Bool.and_eq_true, beq_iff_eq, beq_iff_eq] at hp
  obtain ⟨hid, huid⟩ := hp
  have hmem := List.mem_of_find?_eq_some hfind
  have hrow : (s.db.filter (fun m => m.id == i && m.userId == u)).length = 1 := by
    rw [← List.countP_eq_length_filter, ← hid,
      countP_unique_id s.db hnd n hmem (fun m => m.userId == u)]
    simp [huid]
  unfold markAsRead getNotificationById updateUnreadCount
  rw [show noFail.redis = false from rfl, show noFail.db = false from rfl]
  simp [hmiss, hfind, hunread, hrow, incrOpt]

theorem eq_of_nodup_id (db : List Notification)
    (hnd : (db.map (fun m => m.id)).Nodup) {x m : Notification}
    (hx : x ∈ db) (hm : m ∈ db) (h : x.id = m.id) : x = m := by
  induction db with
  | nil => cases hx
  | cons a t ih =>
    rw [List.map_cons, List.nodup_cons] at hnd
    obtain ⟨ha, ht⟩ := hnd
    rcases List.mem_cons.1 hx with hxa | hxt
    · rcases List.mem_cons.1 hm with hma | hmt
      · rw [hxa, hma]
      · exfalso
        apply ha
        rw [← hxa, h]
        exact List.mem_map_of_mem (fun m => m.id) hmt
    · rcases List.mem_cons.1 hm with hma | hmt
      · exfalso
        apply ha
        rw [← hma, ← h]
        exact List.mem_map_of_mem (fun m => m.id) hxt
      · exact ih ht hxt hmt

theorem markMatching_no_match (db : List Notification) (q : Notification → Bool)
    (now : Nat) (h : ∀ x ∈ db, q x = false) : markMatching db q now = db := by
  unfold markMatching
  have hcg : ∀ a ∈ db,
      (if q a then { a with isRead := true, readAt := some now } else a) = id a :=
    fun a ha => by rw [h a ha]; rfl
  rw [List.map_congr_left hcg, List.map_id]

theorem markAsRead_cachehit_read (s : St) (i u now : Nat) (m : Notification)
    (hhit : s.notifCache i = some m) (hread : m.isRead = true) :
    markAsRead noFail s i u now = (false, s) := by
  unfold markAsRead getNotificationById
  rw [show noFail.redis = false from rfl]
  simp [hhit, hread]

theorem markAsRead_cachehit_unread_owner (s : St) (i u now : Nat) (m : Notification)
    (hnd : (s.db.map (fun x => x.id)).Nodup)
    (hhit : s.notifCache i = some m) (hmem : m ∈ s.db) (hid : m.id = i)
    (huid : m.userId = u) (hunread : m.isRead = false) :
    (markAsRead noFail s i u now).1 = true ∧
    (markAsRead noFail s i u now).2.db =
      markMatching s.db (fun x => x.id == i && x.userId == u) now ∧
    (markAsRead noFail s i u now).2.notifCache i = none ∧
    (∀ v, (markAsRead noFail s i u now).2.unreadUser v =
       if v = u then incrOpt (s.unreadUser v) (-1) else s.unreadUser v) ∧
    (∀ v w', (markAsRead noFail s i u now).2.unreadWs v w' =
       if v = u ∧ w' = m.workspace_id then incrOpt (s.unreadWs v w') (-1)
       else s.unreadWs v w') := by
  have hrow : (s.db.filter (fun x => x.id == i && x.userId == u)).length = 1 := by
    rw [← List.countP_eq_length_filter, ← hid,
      countP_unique_id s.db hnd m hmem (fun x => x.userId == u)]
    simp [huid]
  unfold markAsRead getNotificationById updateUnreadCount
  rw [show noFail.redis = false from rfl, show noFail.db = false from rfl]
  simp [hhit, hunread, hrow, incrOpt]

theorem markAsRead_cachehit_unread_other (s : St) (i u now : Nat) (m : Notification)
    (hnd : (s.db.map (fun x => x.id)).Nodup)
    (hhit : s.notifCache i = some m) (hmem : m ∈ s.db) (hid : m.id = i)
    (huid : ¬(m.userId = u)) (hunread : m.isRead = false) :
    (markAsRead noFail s i u now).1 = false ∧
    (markAsRead noFail s i u now).2.db = s.db ∧
    (markAsRead noFail s i u now).2.unreadUser = s.unreadUser ∧
    (markAsRead noFail s i u now).2.unreadWs = s.unreadWs := by
  have hno : ∀ x ∈ s.db, ((x.id == i) && (x.userId == u)) = false := by
    intro x hx
    by_cases hxi : x.id = i
    · have hxm : x = m := eq_of_nodup_id s.db hnd hx hmem (hxi.trans hid.symm)
      subst hxm
      simp [huid]
    · simp [hxi]
  have hrow : (s.db.filter (fun x => x.id == i && x.userId == u)).length = 0 := by
    rw [← List.countP_eq_length_filter, List.countP_eq_zero]
    intro x hx
    simp [hno x hx]
  have hmm := markMatching_no_match s.db (fun x => x.id == i && x.userId == u) now hno
  unfold markAsRead getNotificationById
  rw [show noFail.redis = false from rfl, show noFail.db = false from rfl]
  simp [hhit, hunread, hrow, hmm]

/-- C7 amended: on a per-id cache miss markAsRead returns false and leaves
the durable store and the counters unchanged when the record is absent for
the user or already read; when the record exists unread it returns true,
marks it read with the timestamp, and decrements both counters by exactly
one; an immediately repeated call then returns false and leaves the counters
unchanged, so the pair of calls decrements exactly once.  A stale cached
copy left by markAllAsRead can instead make markAsRead return true for an
already-read record and decrement again (see the counterexample). -/
theorem markAsRead_false_unless_unread (s : St) (i u now : Nat)
    (hmiss : s.notifCache i = none)
    (hnd : (s.db.map (fun m => m.id)).Nodup) :
    (s.db.find? (fun m => m.id == i && m.userId == u) = none →
       markAsRead noFail s i u now = (false, s)) ∧
    (∀ n, s.db.find? (fun m => m.id == i && m.userId == u) = some n →
       n.isRead = true →
       (markAsRead noFail s i u now).1 = false ∧
       (markAsRead noFail s i u now).2.db = s.db ∧
       (markAsRead noFail s i u now).2.unreadUser = s.unreadUser ∧
       (markAsRead noFail s i u now).2.unreadWs = s.unreadWs) ∧
    (∀ n, s.db.find? (fun m => m.id == i && m.userId == u) = some n →
       n.isRead = false →
       (markAsRead noFail s i u now).1 = true ∧
       (markAsRead noFail s i u now).2.db =
         markMatching s.db (fun m => m.id == i && m.userId == u) now ∧
       (markAsRead noFail s i u now).2.unreadUser u =
         incrOpt (s.unreadUser u) (-1) ∧
       (markAsRead noFail s i u now).2.unreadWs u n.workspace_id =
         incrOpt (s.unreadWs u n.workspace_id) (-1) ∧
       (∀ now2,
          (markAsRead noFail (markAsRead noFail s i u now).2 i u now2).1 = false ∧
          (markAsRead noFail (markAsRead noFail s i u now).2 i u now2).2.unreadUser =
            (markAsRead noFail s i u now).2.unreadUser ∧
          (markAsRead noFail (markAsRead noFail s i u now).2 i u now2).2.unreadWs =
            (markAsRead noFail s i u now).2.unreadWs)) := by
  refine ⟨fun hf => markAsRead_not_found s i u now hmiss hf,
    fun n hf hr => markAsRead_found_read s i u now n hmiss hf hr,
    fun n hf hr => ?_⟩
  obtain ⟨h1, h2, h3, h4, h5⟩ := markAsRead_found_unread s i u now n hnd hmiss hf hr
  refine ⟨h1, h2, by rw [h4]; simp, by rw [h5]; simp, ?_⟩
  intro now2
  have hq : (n.id == i && n.userId == u) = true := by
    have := List.find?_some hf
    simpa using this
  have hcomp :
      (fun m : Notification => m.id == i && m.userId == u) ∘
        (fun m : Notification =>
          if (m.id == i && m.userId == u) then
            { m with isRead := true, readAt := some now } else m) =
      fun m : Notification => m.id == i && m.userId == u := by
    funext x
    simp only [Function.comp_apply]
    by_cases hx : (x.id == i && x.userId == u) = true
    · rw [if_pos hx]
    · rw [if_neg hx]
  have hfind2 : (markAsRead noFail s i u now).2.db.find?
      (fun m => m.id == i && m.userId == u) =
      some { n with isRead := true, readAt := some now } := by
    rw [h2]
    unfold markMatching
    rw [List.find?_map, hcomp, hf]
    simp only [Option.map_some']
    rw [if_pos hq]
  obtain ⟨g1, g2, g3, g4⟩ :=
    markAsRead_found_read (markAsRead noFail s i u now).2 i u now2
      { n with isRead := true, readAt := some now } h3 hfind2 rfl
  exact ⟨g1, g3, g4⟩

/-- Witness for the amended C7: on the seeded store sCW, marking the unread
record 8 returns true and a second identical call returns false. -/
theorem markAsRead_false_unless_unread_witness :
    (markAsRead noFail sCW 8 3 50).1 = true ∧
    (markAsRead noFail (markAsRead noFail sCW 8 3 50).2 8 3 60).1 = false := by
  have h := (markAsRead_false_unless_unread sCW 8 3 50 rfl (by decide)).2.2
    nOldUnread rfl rfl
  exact ⟨h.1, (h.2.2.2.2 60).1⟩

/-- C7 counterexample: after markAllAsRead, whose durable update leaves the
per-id cache copy stale, markAsRead on the already-read record returns true
and decrements the user-wide counter again, from 0 to -1. -/
theorem markAsRead_true_on_already_read :
    (∀ m ∈ sB.db, m.isRead = true) ∧
    sB.unreadUser 1 = some 0 ∧
    (markAsRead noFail sB 1 1 30).1 = true ∧
    (markAsRead noFail sB 1 1 30).2.unreadUser 1 = some (-1) :=
  ⟨by decide, rfl, rfl, rfl⟩

theorem countP_ext {α : Type} (l : List α) (p q : α → Bool)
    (h : ∀ x, p x = q x) : l.countP p = l.countP q := by
  congr 1
  funext x
  exact h x

theorem countP_and_not_unique (db : List Notification)
    (hnd : (db.map (fun m => m.id)).Nodup) (n : Notification) (hmem : n ∈ db)
    (u : Nat) (huid : n.userId = u) (p : Notification → Bool) :
    db.countP (fun m => p m && !(m.id == n.id && m.userId == u)) +
      (if p n then 1 else 0) = db.countP p := by
  have hsplit := countP_and_split db p (fun m => m.id == n.id && m.userId == u)
  have hone : db.countP (fun m => p m && (m.id == n.id && m.userId == u)) =
      if p n then 1 else 0 := by
    rw [countP_ext db _ (fun m => (m.id == n.id) && (p m && (m.userId == u)))
      (fun x => by
        cases h1 : x.id == n.id <;> cases h2 : p x <;> cases h3 : x.userId == u <;>
          simp [h1, h2, h3])]
    rw [countP_unique_id db hnd n hmem (fun m => p m && (m.userId == u))]
    by_cases hp : p n = true
    · simp [hp, huid]
    · simp [hp]
  omega

theorem counterOK_shift (s : St) (hc : CounterOK s)
    (hnd : (s.db.map (fun m => m.id)).Nodup)
    (n : Notification) (hmem : n ∈ s.db) (u : Nat) (huid : n.userId = u) (s' : St)
    (hU : ∀ v, dbUnreadUser s'.db v =
       s.db.countP (fun m => unreadU v m && !(m.id == n.id && m.userId == u)))
    (hW : ∀ v w', dbUnreadWs s'.db v w' =
       s.db.countP (fun m => unreadUW v w' m && !(m.id == n.id && m.userId == u)))
    (huu : ∀ v, s'.unreadUser v =
       if n.isRead = false ∧ v = u then incrOpt (s.unreadUser v) (-1)
       else s.unreadUser v)
    (hww : ∀ v w', s'.unreadWs v w' =
       if n.isRead = false ∧ v = u ∧ w' = n.workspace_id then
         incrOpt (s.unreadWs v w') (-1)
       else s.unreadWs v w') :
    CounterOK s' := by
  constructor
  · intro v
    rw [huu v, hU v]
    have key := countP_and_not_unique s.db hnd n hmem u huid (unreadU v)
    have hcv := hc.1 v
    unfold dbUnreadUser at hcv
    by_cases hcond : n.isRead = false ∧ v = u
    · obtain ⟨hnr, hvu⟩ := hcond
      rw [if_pos ⟨hnr, hvu⟩, hcv]
      have hpn : unreadU v n = true := by
        rw [hvu]
        simp [unreadU, huid, hnr]
      rw [hpn] at key
      simp only [if_true, eq_self_iff_true] at key
      simp only [incrOpt, Option.getD_some, Option.some.injEq]
      omega
    · rw [if_neg hcond, hcv]
      have hpn : unreadU v n = false := by
        unfold unreadU
        by_cases hnr : n.isRead = false
        · have hvu : ¬ v = u := fun hv => hcond ⟨hnr, hv⟩
          have huv : ¬ n.userId = v := fun hx => hvu (hx.symm.trans huid)
          simp [huv]
        · have hread : n.isRead = true := by
            cases h : n.isRead
            · exact absurd h hnr
            · rfl
          simp [hread]
      rw [hpn] at key
      simp only [if_neg (by simp : ¬ (false = true))] at key
      rw [Option.some.injEq]
      omega
  · intro v w'
    rw [hww v w', hW v w']
    have key := countP_and_not_unique s.db hnd n hmem u huid (unreadUW v w')
    have hcv := hc.2 v w'
    unfold dbUnreadWs at hcv
    by_cases hcond : n.isRead = false ∧ v = u ∧ w' = n.workspace_id
    · obtain ⟨hnr, hvu, hwn⟩ := hcond
      rw [if_pos ⟨hnr, hvu, hwn⟩, hcv]
      have hpn : unreadUW v w' n = true := by
        rw [hvu, hwn]
        simp [unreadUW, huid, hnr]
      rw [hpn] at key
      simp only [if_true, eq_self_iff_true] at key
      simp only [incrOpt, Option.getD_some, Option.some.injEq]
      omega
    · rw [if_neg hcond, hcv]
      have hpn : unreadUW v w' n = false := by
        unfold unreadUW
        by_cases hnr : n.isRead = false
        · by_cases hvu : v = u
          · have hwn : ¬ w' = n.workspace_id :=
              fun hw => hcond ⟨hnr, hvu, hw⟩
            have hnw : ¬ n.workspace_id = w' := fun hx => hwn hx.symm
            simp [hnw]
          · have huv : ¬ n.userId = v := fun hx => hvu (hx.symm.trans huid)
            simp [huv]
        · have hread : n.isRead = true := by
            cases h : n.isRead
            · exact absurd h hnr
            · rfl
          simp [hread]
      rw [hpn] at key
      simp only [if_neg (by simp : ¬ (false = true))] at key
      rw [Option.some.injEq]
      omega

theorem countP_unreadU_and_markAll (db : List Notification) (u w v : Nat) :
    db.countP (fun x => unreadU v x &&
        (x.userId == u && !x.isRead && x.workspace_id == w)) =
      if v = u then
        db.countP (fun x => x.userId == u && !x.isRead && x.workspace_id == w)
      else 0 := by
  by_cases hv : v = u
  · rw [if_pos hv]
    subst hv
    apply countP_ext
    intro x
    cases h1 : x.userId == v <;> cases h2 : x.isRead <;>
      cases h3 : x.workspace_id == w <;> simp [unreadU, h1, h2, h3]
  · rw [if_neg hv]
    rw [List.countP_eq_zero]
    intro x hx hcc
    simp only [unreadU, Bool.and_eq_true, beq_iff_eq, Bool.not_eq_true'] at hcc
    obtain ⟨⟨hxv, _⟩, ⟨hxu, _⟩, _⟩ := hcc
    exact hv (hxv.symm.trans hxu)

theorem countP_unreadUW_and_markAll (db : List Notification) (u w v w' : Nat) :
    db.countP (fun x => unreadUW v w' x &&
        (x.userId == u && !x.isRead && x.workspace_id == w)) =
      if v = u ∧ w' = w then
        db.countP (fun x => x.userId == u && !x.isRead && x.workspace_id == w)
      else 0 := by
  by_cases hv : v = u ∧ w' = w
  · obtain ⟨hvu, hwd⟩ := hv
    rw [if_pos ⟨hvu, hwd⟩]
    subst hvu
    subst hwd
    apply countP_ext
    intro x
    cases h1 : x.userId == v <;> cases h2 : x.isRead <;>
      cases h3 : x.workspace_id == w' <;> simp [unreadUW, h1, h2, h3]
  · rw [if_neg hv]
    rw [List.countP_eq_zero]
    intro x hx hcc
    simp only [unreadUW, Bool.and_eq_true, beq_iff_eq, Bool.not_eq_true'] at hcc
    obtain ⟨⟨⟨hxv, hxw⟩, _⟩, ⟨hxu, _⟩, hxd⟩ := hcc
    exact hv ⟨hxv.symm.trans hxu, hxw.symm.trans hxd⟩

theorem markAllAsRead_result (s : St) (u : Nat) (ws : Option Nat) (now : Nat) :
    (markAllAsRead noFail s u ws now).1 =
      s.db.countP (fun n => n.userId == u && !n.isRead &&
        (match ws with | some w => n.workspace_id == w | none => true)) := by
  unfold markAllAsRead
  rw [show noFail.db = false from rfl]
  simp only [Bool.false_eq_true, if_false]
  split <;> rfl

theorem markAllAsRead_counters_pos (s : St) (u w now : Nat)
    (hpos : 0 < s.db.countP
      (fun n => n.userId == u && !n.isRead && n.workspace_id == w)) :
    (∀ v, (markAllAsRead noFail s u (some w) now).2.unreadUser v =
       if v = u then
         incrOpt (s.unreadUser v)
           (-(s.db.countP
              (fun n => n.userId == u && !n.isRead && n.workspace_id == w) : Int))
       else s.unreadUser v) ∧
    (∀ v w', (markAllAsRead noFail s u (some w) now).2.unreadWs v w' =
       if v = u ∧ w' = w then
         incrOpt (s.unreadWs v w')
           (-(s.db.countP
              (fun n => n.userId == u && !n.isRead && n.workspace_id == w) : Int))
       else s.unreadWs v w') := by
  unfold markAllAsRead updateUnreadCount
  rw [show noFail.db = false from rfl, show noFail.redis = false from rfl]
  simp only [Bool.false_eq_true, if_false]
  rw [if_pos hpos]
  exact ⟨fun v => rfl, fun v w' => rfl⟩

theorem markAllAsRead_counters_zero (s : St) (u : Nat) (ws : Option Nat) (now : Nat)
    (hz : s.db.countP (fun n => n.userId == u && !n.isRead &&
      (match ws with | some w => n.workspace_id == w | none => true)) = 0) :
    (markAllAsRead noFail s u ws now).2.unreadUser = s.unreadUser ∧
    (markAllAsRead noFail s u ws now).2.unreadWs = s.unreadWs := by
  unfold markAllAsRead
  rw [show noFail.db = false from rfl]
  simp only [Bool.false_eq_true, if_false]
  rw [if_neg (by omega)]
  exact ⟨rfl, rfl⟩

theorem counterOK_markAll_ws (s : St) (hc : CounterOK s) (u w now : Nat) (s' : St)
    (hdb : s'.db = markMatching s.db
      (fun x => x.userId == u && !x.isRead && x.workspace_id == w) now)
    (huu : ∀ v, s'.unreadUser v =
       if v = u then
         incrOpt (s.unreadUser v)
           (-(s.db.countP
              (fun x => x.userId == u && !x.isRead && x.workspace_id == w) : Int))
       else s.unreadUser v)
    (hww : ∀ v w', s'.unreadWs v w' =
       if v = u ∧ w' = w then
         incrOpt (s.unreadWs v w')
           (-(s.db.countP
              (fun x => x.userId == u && !x.isRead && x.workspace_id == w) : Int))
       else s.unreadWs v w') :
    CounterOK s' := by
  constructor
  · intro v
    rw [huu v, hdb, dbUnreadUser_mark]
    have hsplit := countP_and_split s.db (unreadU v)
      (fun x => x.userId == u && !x.isRead && x.workspace_id == w)
    rw [countP_unreadU_and_markAll s.db u w v] at hsplit
    have hcv := hc.1 v
    unfold dbUnreadUser at hcv
    by_cases hv : v = u
    · rw [if_pos hv, hcv]
      rw [if_pos hv] at hsplit
      simp only [incrOpt, Option.getD_some, Option.some.injEq]
      omega
    · rw [if_neg hv, hcv]
      rw [if_neg hv] at hsplit
      rw [Option.some.injEq]
      omega
  · intro v w'
    rw [hww v w', hdb, dbUnreadWs_mark]
    have hsplit := countP_and_split s.db (unreadUW v w')
      (fun x => x.userId == u && !x.isRead && x.workspace_id == w)
    rw [countP_unreadUW_and_markAll s.db u w v w'] at hsplit
    have hcv := hc.2 v w'
    unfold dbUnreadWs at hcv
    by_cases hv : v = u ∧ w' = w
    · rw [if_pos hv, hcv]
      rw [if_pos hv] at hsplit
      simp only [incrOpt, Option.getD_some, Option.some.injEq]
      omega
    · rw [if_neg hv, hcv]
      rw [if_neg hv] at hsplit
      rw [Option.some.injEq]
      omega

theorem counterOK_recompute (st : St) (u : Nat) (hc : CounterOK st) :
    CounterOK (updateUnreadCount noFail st u none none) := by
  unfold updateUnreadCount
  rw [show noFail.db = false from rfl, show noFail.redis = false from rfl]
  simp only [Bool.false_eq_true, if_false]
  constructor
  · intro v
    by_cases hv : v = u
    · simp [hv]
    · simp only []
      rw [if_neg hv]
      exact hc.1 v
  · intro v w
    exact hc.2 v w

theorem counterOK_recompute_foldl (l : List Nat) (st : St) (hc : CounterOK st) :
    CounterOK (l.foldl (fun st u => updateUnreadCount noFail st u none none) st) := by
  induction l generalizing st with
  | nil => exact hc
  | cons a t ih => exact ih _ (counterOK_recompute st a hc)

theorem counterOK_purge (st : St) (rows : List Notification) (hc : CounterOK st) :
    CounterOK (purgeCache st rows) := by
  constructor
  · intro v
    rw [purgeCache_unreadUser, purgeCache_db]
    exact hc.1 v
  · intro v w
    rw [purgeCache_unreadWs, purgeCache_db]
    exact hc.2 v w

theorem dbUnreadUser_retention (db : List Notification) (cutoff v : Nat) :
    dbUnreadUser (db.filter
      (fun n => !(decide (n.created_at < cutoff) && n.isRead))) v =
      dbUnreadUser db v := by
  rw [dbUnreadUser_filter]
  apply countP_ext
  intro x
  cases h1 : x.isRead <;> simp [unreadU, h1]

theorem dbUnreadWs_retention (db : List Notification) (cutoff v w : Nat) :
    dbUnreadWs (db.filter
      (fun n => !(decide (n.created_at < cutoff) && n.isRead))) v w =
      dbUnreadWs db v w := by
  rw [dbUnreadWs_filter]
  apply countP_ext
  intro x
  cases h1 : x.isRead <;> simp [unreadUW, h1]

theorem deleteNotification_not_found (s : St) (i u : Nat)
    (hmiss : s.notifCache i = none)
    (hfind : s.db.find? (fun m => m.id == i && m.userId == u) = none) :
    deleteNotification noFail s i u = (false, s) := by
  unfold deleteNotification getNotificationById
  rw [show noFail.redis = false from rfl, show noFail.db = false from rfl]
  simp [hmiss, hfind]

theorem deleteNotification_cachehit_owner (s : St) (i u : Nat) (m : Notification)
    (hnd : (s.db.map (fun x => x.id)).Nodup)
    (hhit : s.notifCache i = some m) (hmem : m ∈ s.db) (hid : m.id = i)
    (huid : m.userId = u) :
    (deleteNotification noFail s i u).1 = true ∧
    (deleteNotification noFail s i u).2.db =
      s.db.filter (fun x => !(x.id == i && x.userId == u)) ∧
    (∀ v, (deleteNotification noFail s i u).2.unreadUser v =
       if m.isRead = false ∧ v = u then incrOpt (s.unreadUser v) (-1)
       else s.unreadUser v) ∧
    (∀ v w', (deleteNotification noFail s i u).2.unreadWs v w' =
       if m.isRead = false ∧ v = u ∧ w' = m.workspace_id then
         incrOpt (s.unreadWs v w') (-1)
       else s.unreadWs v w') := by
  have hrow : (s.db.filter (fun x => x.id == i && x.userId == u)).length = 1 := by
    rw [← List.countP_eq_length_filter, ← hid,
      countP_unique_id s.db hnd m hmem (fun x => x.userId == u)]
    simp [huid]
  cases hr : m.isRead with
  | true =>
    unfold deleteNotification getNotificationById
    rw [show noFail.redis = false from rfl, show noFail.db = false from rfl]
    simp [hhit, hr, hrow]
  | false =>
    unfold deleteNotification getNotificationById updateUnreadCount
    rw [show noFail.redis = false from rfl, show noFail.db = false from rfl]
    simp [hhit, hr, hrow, incrOpt]

theorem deleteNotification_cachehit_other (s : St) (i u : Nat) (m : Notification)
    (hnd : (s.db.map (fun x => x.id)).Nodup)
    (hhit : s.notifCache i = some m) (hmem : m ∈ s.db) (hid : m.id = i)
    (huid : ¬(m.userId = u)) :
    (deleteNotification noFail s i u).1 = false ∧
    (deleteNotification noFail s i u).2.db = s.db ∧
    (deleteNotification noFail s i u).2.unreadUser = s.unreadUser ∧
    (deleteNotification noFail s i u).2.unreadWs = s.unreadWs := by
  have hno : ∀ x ∈ s.db, ((x.id == i) && (x.userId == u)) = false := by
    intro x hx
    by_cases hxi : x.id = i
    · have hxm : x = m := eq_of_nodup_id s.db hnd hx hmem (hxi.trans hid.symm)
      subst hxm
      simp [huid]
    · simp [hxi]
  have hrow : (s.db.filter (fun x => x.id == i && x.userId == u)).length = 0 := by
    rw [← List.countP_eq_length_filter, List.countP_eq_zero]
    intro x hx
    simp [hno x hx]
  have hfid : s.db.filter (fun x => !(x.id == i && x.userId == u)) = s.db := by
    rw [List.filter_eq_self]
    intro a ha
    rw [hno a ha]
    rfl
  unfold deleteNotification getNotificationById
  rw [show noFail.redis = false from rfl, show noFail.db = false from rfl]
  simp [hhit, hrow, hfid]
  intro a ha
  have hfa := hno a ha
  by_cases hai : a.id = i
  · right
    intro hau
    simp [hai, hau] at hfa
  · left
    exact hai

theorem deleteNotification_miss_found (s : St) (i u : Nat) (m : Notification)
    (hnd : (s.db.map (fun x => x.id)).Nodup)
    (hmiss : s.notifCache i = none)
    (hfind : s.db.find? (fun x => x.id == i && x.userId == u) = some m) :
    (deleteNotification noFail s i u).1 = true ∧
    (deleteNotification noFail s i u).2.db =
      s.db.filter (fun x => !(x.id == i && x.userId == u)) ∧
    (∀ v, (deleteNotification noFail s i u).2.unreadUser v =
       if m.isRead = false ∧ v = u then incrOpt (s.unreadUser v) (-1)
       else s.unreadUser v) ∧
    (∀ v w', (deleteNotification noFail s i u).2.unreadWs v w' =
       if m.isRead = false ∧ v = u ∧ w' = m.workspace_id then
         incrOpt (s.unreadWs v w') (-1)
       else s.unreadWs v w') := by
  have hp : (m.id == i && m.userId == u) = true := by
    have := List.find?_some hfind
    simpa using this
  rw [Bool.and_eq_true, beq_iff_eq, beq_iff_eq] at hp
  obtain ⟨hid, huid⟩ := hp
  have hmem := List.mem_of_find?_eq_some hfind
  have hrow : (s.db.filter (fun x => x.id == i && x.userId == u)).length = 1 := by
    rw [← List.countP_eq_length_filter, ← hid,
      countP_unique_id s.db hnd m hmem (fun x => x.userId == u)]
    simp [huid]
  cases hr : m.isRead with
  | true =>
    unfold deleteNotification getNotificationById
    rw [show noFail.redis = false from rfl, show noFail.db = false from rfl]
    simp [hmiss, hfind, hr, hrow]
  | false =>
    unfold deleteNotification getNotificationById updateUnreadCount
    rw [show noFail.redis = false from rfl, show noFail.db = false from rfl]
    simp [hmiss, hfind, hr, hrow, incrOpt]

/-- C3 amended: starting from a state whose cached unread counters are all
present and equal to their durable counts and whose ids are distinct, each
operation preserves that property — compose when its effective channel set
is nonempty, markAsRead and deleteNotification when every cached per-id copy
is a verbatim copy of a current durable record, markAllAsRead when called
with a workspace filter, and the retention sweep unconditionally — and
markAllAsRead returns exactly the durable number of records it transitions.
The original claim fails: markAllAsRead without a workspace filter leaves
per-workspace counters stale (see the counterexample), an empty-channel
compose persists an unread record without counting it, and markAllAsRead
leaves per-id cache copies stale, defeating the cache-coherence proviso a
later markAsRead needs. -/
theorem counters_match_durable_per_operation (s : St)
    (hnd : IdsNodup s) (hc : CounterOK s) :
    (∀ (newId now : Nat) (nd : NotificationData) (n' : Notification) (s' : St),
       createAndSendNotification noFail s newId now nd = some (n', s') →
       n'.channels ≠ [] → CounterOK s') ∧
    (NotifCacheOK s → ∀ i u now, CounterOK (markAsRead noFail s i u now).2) ∧
    (∀ u w now, CounterOK (markAllAsRead noFail s u (some w) now).2) ∧
    (∀ u w now, (markAllAsRead noFail s u (some w) now).1 = dbUnreadWs s.db u w) ∧
    (∀ u now, (markAllAsRead noFail s u none now).1 = dbUnreadUser s.db u) ∧
    (NotifCacheOK s → ∀ i u, CounterOK (deleteNotification noFail s i u).2) ∧
    (∀ cutoff, CounterOK (deleteOldNotifications noFail s cutoff).2) := by
  refine ⟨?_, ?_, ?_, ?_, ?_, ?_, ?_⟩
  · -- compose with nonempty effective channels
    intro newId now nd n' s' h hne
    obtain ⟨hn, hdb, hcs⟩ := createAndSend_spec s newId now nd n' s' h
    rcases hcs with ⟨hz, _, _⟩ | ⟨_, huu, hww⟩
    · exact absurd hz hne
    constructor
    · intro v
      rw [huu v, hdb]
      unfold dbUnreadUser
      rw [List.countP_append, List.countP_singleton]
      have hcv := hc.1 v
      unfold dbUnreadUser at hcv
      by_cases hv : v = nd.userId
      · rw [if_pos hv, hcv]
        have hun : unreadU v n' = true := by
          rw [hn, hv]
          simp [unreadU]
        rw [hun]
        simp only [if_pos rfl, incrOpt, Option.getD_some, Option.some.injEq]
        push_cast
        omega
      · rw [if_neg hv, hcv]
        have hun : unreadU v n' = false := by
          rw [hn]
          simp only [unreadU]
          have : ¬ nd.userId = v := fun hx => hv hx.symm
          simp [this]
        rw [hun]
        simp
    · intro v w'
      rw [hww v w', hdb]
      unfold dbUnreadWs
      rw [List.countP_append, List.countP_singleton]
      have hcv := hc.2 v w'
      unfold dbUnreadWs at hcv
      by_cases hv : v = nd.userId ∧ w' = nd.workspace_id
      · obtain ⟨hv1, hv2⟩ := hv
        rw [if_pos ⟨hv1, hv2⟩, hcv]
        have hun : unreadUW v w' n' = true := by
          rw [hn, hv1, hv2]
          simp [unreadUW]
        rw [hun]
        simp only [if_pos rfl, incrOpt, Option.getD_some, Option.some.injEq]
        push_cast
        omega
      · rw [if_neg hv, hcv]
        have hun : unreadUW v w' n' = false := by
          rw [hn]
          simp only [unreadUW]
          by_cases hv1 : v = nd.userId
          · have hv2 : ¬ w' = nd.workspace_id := fun hx => hv ⟨hv1, hx⟩
            have : ¬ nd.workspace_id = w' := fun hx => hv2 hx.symm
            simp [this]
          · have : ¬ nd.userId = v := fun hx => hv1 hx.symm
            simp [this]
        rw [hun]
        simp
  · -- markAsRead under per-id cache coherence
    intro hcache i u now
    cases hhit : s.notifCache i with
    | some m =>
      obtain ⟨hmem, hid⟩ := hcache i m hhit
      cases hr : m.isRead with
      | true =>
        rw [markAsRead_cachehit_read s i u now m hhit hr]
        exact hc
      | false =>
        by_cases huid : m.userId = u
        · obtain ⟨_, hdb, _, huu, hww⟩ :=
            markAsRead_cachehit_unread_owner s i u now m hnd hhit hmem hid huid hr
          subst hid
          refine counterOK_shift s hc hnd m hmem u huid _
            (fun v => by rw [hdb, dbUnreadUser_mark])
            (fun v w' => by rw [hdb, dbUnreadWs_mark])
            (fun v => by rw [huu v]; simp [hr])
            (fun v w' => by rw [hww v w']; simp [hr])
        · obtain ⟨_, hdb, huu, hww⟩ :=
            markAsRead_cachehit_unread_other s i u now m hnd hhit hmem hid huid hr
          constructor
          · intro v
            rw [huu, hdb]
            exact hc.1 v
          · intro v w'
            rw [hww, hdb]
            exact hc.2 v w'
    | none =>
      cases hfind : s.db.find? (fun x => x.id == i && x.userId == u) with
      | none =>
        rw [markAsRead_not_found s i u now hhit hfind]
        exact hc
      | some m =>
        have hp : (m.id == i && m.userId == u) = true := by
          have := List.find?_some hfind
          simpa using this
        rw [Bool.and_eq_true, beq_iff_eq, beq_iff_eq] at hp
        obtain ⟨hid, huid⟩ := hp
        have hmem := List.mem_of_find?_eq_some hfind
        cases hr : m.isRead with
        | true =>
          obtain ⟨_, hdb, huu, hww⟩ :=
            markAsRead_found_read s i u now m hhit hfind hr
          constructor
          · intro v
            rw [huu, hdb]
            exact hc.1 v
          · intro v w'
            rw [hww, hdb]
            exact hc.2 v w'
        | false =>
          obtain ⟨_, hdb, _, huu, hww⟩ :=
            markAsRead_found_unread s i u now m hnd hhit hfind hr
          subst hid
          refine counterOK_shift s hc hnd m hmem u huid _
            (fun v => by rw [hdb, dbUnreadUser_mark])
            (fun v w' => by rw [hdb, dbUnreadWs_mark])
            (fun v => by rw [huu v]; simp [hr])
            (fun v w' => by rw [hww v w']; simp [hr])
  · -- markAllAsRead with a workspace filter
    intro u w now
    by_cases hpos : 0 < s.db.countP
        (fun x => x.userId == u && !x.isRead && x.workspace_id == w)
    · obtain ⟨huu, hww⟩ := markAllAsRead_counters_pos s u w now hpos
      exact counterOK_markAll_ws s hc u w now _
        (markAllAsRead_db s u (some w) now) huu hww
    · have hz : s.db.countP
          (fun x => x.userId == u && !x.isRead && x.workspace_id == w) = 0 := by
        omega
      obtain ⟨huu, hww⟩ := markAllAsRead_counters_zero s u (some w) now hz
      have hnm : ∀ x ∈ s.db,
          (x.userId == u && !x.isRead && x.workspace_id == w) = false := by
        intro x hx
        exact Bool.eq_false_iff.2 (List.countP_eq_zero.1 hz x hx)
      constructor
      · intro v
        rw [huu, markAllAsRead_db, markMatching_no_match _ _ _ hnm]
        exact hc.1 v
      · intro v w'
        rw [hww, markAllAsRead_db, markMatching_no_match _ _ _ hnm]
        exact hc.2 v w'
  · -- exact transition count, workspace scope
    intro u w now
    rw [markAllAsRead_result]
    unfold dbUnreadWs
    apply countP_ext
    intro x
    cases h1 : x.userId == u <;> cases h2 : x.isRead <;>
      cases h3 : x.workspace_id == w <;> simp [unreadUW, h1, h2, h3]
  · -- exact transition count, user-wide scope
    intro u now
    rw [markAllAsRead_result]
    unfold dbUnreadUser
    apply countP_ext
    intro x
    cases h1 : x.userId == u <;> cases h2 : x.isRead <;> simp [unreadU, h1, h2]
  · -- deleteNotification under per-id cache coherence
    intro hcache i u
    cases hhit : s.notifCache i with
    | some m =>
      obtain ⟨hmem, hid⟩ := hcache i m hhit
      by_cases huid : m.userId = u
      · obtain ⟨_, hdb, huu, hww⟩ :=
          deleteNotification_cachehit_owner s i u m hnd hhit hmem hid huid
        subst hid
        refine counterOK_shift s hc hnd m hmem u huid _
          (fun v => by rw [hdb, dbUnreadUser_filter])
          (fun v w' => by rw [hdb, dbUnreadWs_filter])
          huu hww
      · obtain ⟨_, hdb, huu, hww⟩ :=
          deleteNotification_cachehit_other s i u m hnd hhit hmem hid huid
        constructor
        · intro v
          rw [huu, hdb]
          exact hc.1 v
        · intro v w'
          rw [hww, hdb]
          exact hc.2 v w'
    | none =>
      cases hfind : s.db.find? (fun x => x.id == i && x.userId == u) with
      | none =>
        rw [deleteNotification_not_found s i u hhit hfind]
        exact hc
      | some m =>
        have hp : (m.id == i && m.userId == u) = true := by
          have := List.find?_some hfind
          simpa using this
        rw [Bool.and_eq_true, beq_iff_eq, beq_iff_eq] at hp
        obtain ⟨hid, huid⟩ := hp
        have hmem := List.mem_of_find?_eq_some hfind
        obtain ⟨_, hdb, huu, hww⟩ :=
          deleteNotification_miss_found s i u m hnd hhit hfind
        subst hid
        refine counterOK_shift s hc hnd m hmem u huid _
          (fun v => by rw [hdb, dbUnreadUser_filter])
          (fun v w' => by rw [hdb, dbUnreadWs_filter])
          huu hww
  · -- retention sweep
    intro cutoff
    unfold deleteOldNotifications
    rw [show noFail.db = false from rfl, show noFail.redis = false from rfl]
    simp only [Bool.false_eq_true, if_false]
    split
    · apply counterOK_recompute_foldl
      apply counterOK_purge
      constructor
      · intro v
        show s.unreadUser v = some (dbUnreadUser (s.db.filter
          (fun n => !(decide (n.created_at < cutoff) && n.isRead))) v : Int)
        rw [dbUnreadUser_retention]
        exact hc.1 v
      · intro v w
        show s.unreadWs v w = some (dbUnreadWs (s.db.filter
          (fun n => !(decide (n.created_at < cutoff) && n.isRead))) v w : Int)
        rw [dbUnreadWs_retention]
        exact hc.2 v w
    · constructor
      · intro v
        show s.unreadUser v = some (dbUnreadUser (s.db.filter
          (fun n => !(decide (n.created_at < cutoff) && n.isRead))) v : Int)
        rw [dbUnreadUser_retention]
        exact hc.1 v
      · intro v w
        show s.unreadWs v w = some (dbUnreadWs (s.db.filter
          (fun n => !(decide (n.created_at < cutoff) && n.isRead))) v w : Int)
        rw [dbUnreadWs_retention]
        exact hc.2 v w

/-- Witness for the amended C3 on the seeded two-record store: a
workspace-filtered markAllAsRead keeps every cached counter equal to its
durable count. -/
theorem counters_match_durable_witness :
    IdsNodup sCW ∧ CounterOK (markAllAsRead noFail sCW 3 (some 4) 70).2 :=
  ⟨by decide,
    (counters_match_durable_per_operation sCW (by decide)
      ⟨fun _ => rfl, fun _ _ => rfl⟩).2.2.1 3 4 70⟩

/-- C3 counterexample: in the reachable state sB, produced by composing one
notification and then calling markAllAsRead without a workspace filter, the
cached per-workspace counter still reads 1 while the durable store holds no
unread notification for that workspace, so the cached counters do not match
the durable counts. -/
theorem markAllAsRead_no_workspace_leaves_stale_counter :
    sB.unreadWs 1 2 = some 1 ∧ dbUnreadWs sB.db 1 2 = 0 ∧
    sB.unreadUser 1 = some 0 ∧ ¬ CounterOK sB :=
  ⟨rfl, rfl, rfl, fun hcc => absurd (hcc.2 1 2) (by decide)⟩

/-- C2: evaluation of getUserNotifications showing the durable fallback is
dead code: the warm-cache call returns the composed notification, while the
same call on the identical durable store with the cache cleared returns the
empty feed, because the fallback statement carries three bind values against
one placeholder — the interpolation loses the dollar prefix — so the
database rejects it and the catch returns the empty feed. -/
theorem getUserNotifications_fallback_rejected :
    (getUserNotifications noFail sW 1 none {}).1.notifications.length = 1 ∧
    sWCleared.db = sW.db ∧
    (getUserNotifications noFail sWCleared 1 none {}).1 = emptyFeed ∧
    fallbackBindValues none ({} : FeedOptions).types = 3 ∧
    fallbackBindPlaceholders = 1 :=
  ⟨rfl, rfl, rfl, rfl, rfl⟩

/-- C10 amended: the four operations never propagate a backend exception
(the embedding is total for every failure assignment); when the durable
store fails, markAsRead and deleteNotification return false, markAllAsRead
returns 0, and getUserNotifications returns the empty feed whenever the
cache path produced no records.  A cache-side failure, however, is absorbed
by an inner handler and need not produce the benign default (see the
counterexample). -/
theorem ops_return_defaults_on_db_failure (f : Fail) (s : St)
    (hdb : f.db = true) :
    (∀ i u now, (markAsRead f s i u now).1 = false) ∧
    (∀ u ws now, (markAllAsRead f s u ws now).1 = 0) ∧
    (∀ i u, (deleteNotification f s i u).1 = false) ∧
    (∀ userId ws opts,
       (getUserNotificationsFromRedis f s userId ws opts.limit
         ((opts.page - 1) * opts.limit)).1 = [] →
       (getUserNotifications f s userId ws opts).1 = emptyFeed) := by
  refine ⟨?_, ?_, ?_, ?_⟩
  · intro i u now
    unfold markAsRead getNotificationById
    rw [hdb]
    (repeat' split) <;> simp_all
  · intro u ws now
    unfold markAllAsRead
    rw [hdb]
    rfl
  · intro i u
    unfold deleteNotification getNotificationById
    rw [hdb]
    (repeat' split) <;> simp_all
  · intro userId ws opts hredis
    unfold getUserNotifications
    simp [hredis, hdb]

/-- Witness for the amended C10 with the durable store failing. -/
theorem ops_return_defaults_on_db_failure_witness :
    (markAsRead ⟨false, true⟩ sW 1 1 30).1 = false ∧
    (markAllAsRead ⟨false, true⟩ sW 1 none 20).1 = 0 ∧
    (deleteNotification ⟨false, true⟩ sW 1 1).1 = false ∧
    (getUserNotifications ⟨false, true⟩ emptySt 1 none {}).1 = emptyFeed := by
  have h := ops_return_defaults_on_db_failure ⟨false, true⟩ emptySt rfl
  have h2 := ops_return_defaults_on_db_failure ⟨false, true⟩ sW rfl
  exact ⟨h2.1 1 1 30, h2.2.1 1 none 20, h2.2.2.1 1 1, h.2.2.2 1 none {} rfl⟩

/-- C10 counterexample: with the cache backend failing and the durable store
healthy, markAllAsRead on the one-unread-notification state still returns 1,
the transitioned count, not its benign default 0: the cache failure inside
updateUnreadCount is swallowed and the cached counter is simply left
behind. -/
theorem markAllAsRead_nondefault_under_cache_failure :
    (markAllAsRead ⟨true, false⟩ sW 1 none 20).1 = 1 ∧
    (markAllAsRead ⟨true, false⟩ sW 1 none 20).2.unreadUser 1 = some 1 :=
  ⟨rfl, rfl⟩

end Taskie
